import Mathlib

/-!
A shallow embedding of the `synacor` crate (a Synacor-challenge virtual
machine) and proofs about it.

Modelling conventions:
* Rust `u16` values are `Nat`s; every primitive `u16` operation that can
  overflow is reduced `% 65536` (two's-complement wrapping, the defined
  behaviour of release builds).
* Operations that can `panic` in Rust (array index out of bounds,
  `Register::new` / `Argument::new` on an out-of-range word, `%` by zero)
  return in the `Panic` monad; `Panic.panicked` is the Rust panic.
* `Vec<u16>` push/pop at the end of the vector is modelled by a `List Nat`
  whose head is the top of the stack.
* `instruction.rs` declares the payloads of `RMEM`/`WMEM`/`CALL`/`IN` as
  `Address` while `vm.rs` (and its test suite) applies `Argument`-typed
  helpers to those operands; the embedding keeps the declared `Address`
  payload and reclassifies the raw word as an `Argument` (`Argument.new`)
  at the execute boundary, which reproduces the behaviour exercised by the
  vm.rs tests.
* Terminal I/O is made explicit: execution threads a `stdin : List Nat`
  (bytes) and returns the list of bytes emitted to stdout.
-/

namespace Synacor

/-- Rust `constants::MODULUS` from lib.rs. -/
def MODULUS : Nat := 32768

/-- Rust `constants::U15_MAX = MODULUS - 1` from lib.rs. -/
def U15_MAX : Nat := MODULUS - 1

/-- Rust `constants::REGISTER_0` from lib.rs. -/
def REGISTER_0 : Nat := 32768

/-- Rust `constants::REGISTER_7` from lib.rs. -/
def REGISTER_7 : Nat := 32775

/-- The wrap-around modulus of the 16-bit machine words. -/
def U16_MOD : Nat := 65536

/-- Result of a Rust computation that can panic. -/
inductive Panic (α : Type) where
  | ok : α → Panic α
  | panicked : Panic α
deriving DecidableEq, Repr

namespace Panic

def map {α β : Type} (f : α → β) : Panic α → Panic β
  | .ok a => .ok (f a)
  | .panicked => .panicked

def bind {α β : Type} : Panic α → (α → Panic β) → Panic β
  | .ok a, f => f a
  | .panicked, _ => .panicked

instance : Monad Panic where
  pure := .ok
  map := map
  bind := bind

end Panic

/-- The 15-bit modular number type `u15` from lib.rs: a newtype over `u16`. -/
structure u15 where
  val : Nat
deriving DecidableEq, Repr

namespace u15

/-- Rust `Add for u15`: `u15((self.0 + rhs.0) % MODULUS)`; the inner `u16`
addition wraps at 2^16. -/
def add (a b : u15) : u15 := ⟨(a.val + b.val) % U16_MOD % MODULUS⟩

/-- Rust `Mul for u15`: `u15((self.0 * rhs.0) % MODULUS)`; the inner `u16`
multiplication wraps at 2^16. -/
def mul (a b : u15) : u15 := ⟨(a.val * b.val) % U16_MOD % MODULUS⟩

/-- Rust `Not for u15`: `u15((!self.0) % MODULUS)` — bitwise complement of the
16-bit word, then reduced mod 32768. -/
def not (a : u15) : u15 := ⟨(a.val ^^^ 65535) % MODULUS⟩

/-- Rust `Rem for u15`: `u15((self.0 % rhs.0) % MODULUS)`; `%` by zero panics. -/
def rem (a b : u15) : Panic u15 :=
  if b.val = 0 then .panicked else .ok ⟨a.val % b.val % MODULUS⟩

/-- Rust `BitAnd for u15`: `u15((self.0 & rhs.0) % MODULUS)`. -/
def land (a b : u15) : u15 := ⟨(a.val &&& b.val) % MODULUS⟩

/-- Rust `BitOr for u15`: `u15((self.0 | rhs.0) % MODULUS)`. -/
def lor (a b : u15) : u15 := ⟨(a.val ||| b.val) % MODULUS⟩

end u15

/-- Rust `Address` from address.rs: a raw 16-bit value. -/
structure Address where
  val : Nat
deriving DecidableEq, Repr

namespace Address

/-- Rust `Address::new`. -/
def new (u : Nat) : Address := ⟨u⟩

/-- Rust `Address::is_valid`: `self.0 <= REGISTER_7`. -/
def is_valid (a : Address) : Bool := decide (a.val ≤ REGISTER_7)

/-- Rust `Address::is_invalid`: `!self.is_valid()`. -/
def is_invalid (a : Address) : Bool := ! a.is_valid

/-- Rust `Address::is_register`: `REGISTER_0 <= self.0 && self.0 <= REGISTER_7`. -/
def is_register (a : Address) : Bool :=
  decide (REGISTER_0 ≤ a.val) && decide (a.val ≤ REGISTER_7)

/-- Rust `Address::is_memory`: `self.is_valid() && !self.is_register()`. -/
def is_memory (a : Address) : Bool := a.is_valid && ! a.is_register

/-- Rust `Address::next`: `self.0 += 1`, a plain `u16` increment (wrapping at
2^16, no saturation and no range check). -/
def next (a : Address) : Address := ⟨(a.val + 1) % U16_MOD⟩

/-- Rust `Address::value` / `Address::to_u16`. -/
def value (a : Address) : Nat := a.val

/-- Rust `Address::to_usize`. -/
def to_usize (a : Address) : Nat := a.val

end Address

/-- Rust `Register` from register.rs. -/
inductive Register where
  | R0 | R1 | R2 | R3 | R4 | R5 | R6 | R7
deriving DecidableEq, Repr

namespace Register

/-- Rust `Register::new`: computes `r_addr = u - REGISTER_0` in wrapping
`u16` arithmetic and matches the result against 0..=7, panicking
("Invalid address for register") otherwise.  On the `u16` domain
`r_addr = k` (k ≤ 7) holds exactly when `u = REGISTER_0 + k`, which is
how the comparison is rendered here. -/
def new (u : Nat) : Panic Register :=
  if u = REGISTER_0 then .ok .R0
  else if u = REGISTER_0 + 1 then .ok .R1
  else if u = REGISTER_0 + 2 then .ok .R2
  else if u = REGISTER_0 + 3 then .ok .R3
  else if u = REGISTER_0 + 4 then .ok .R4
  else if u = REGISTER_0 + 5 then .ok .R5
  else if u = REGISTER_0 + 6 then .ok .R6
  else if u = REGISTER_0 + 7 then .ok .R7
  else .panicked

/-- Rust `Register::as_index`. -/
def as_index : Register → Nat
  | .R0 => 0 | .R1 => 1 | .R2 => 2 | .R3 => 3
  | .R4 => 4 | .R5 => 5 | .R6 => 6 | .R7 => 7

/-- Rust `Register::as_address`. -/
def as_address : Register → Address
  | .R0 => Address.new 32768 | .R1 => Address.new 32769
  | .R2 => Address.new 32770 | .R3 => Address.new 32771
  | .R4 => Address.new 32772 | .R5 => Address.new 32773
  | .R6 => Address.new 32774 | .R7 => Address.new 32775

/-- Rust `Register::to_u16`: `self.as_address().value()`. -/
def to_u16 (r : Register) : Nat := r.as_address.value

end Register

/-- Rust `Argument` from argument.rs. -/
inductive Argument where
  | Literal (u : u15)
  | Register (r : Register)
deriving DecidableEq, Repr

namespace Argument

/-- Rust `Argument::new`: registers for `u >= REGISTER_0` (panicking above
`REGISTER_7` via `Register::new`), literals below. -/
def new (u : Nat) : Panic Argument :=
  if REGISTER_0 ≤ u then (Register.new u).map .Register
  else .ok (.Literal ⟨u⟩)

/-- Rust `Argument::to_u16`. -/
def to_u16 : Argument → Nat
  | .Literal u => u.val
  | .Register r => r.to_u16

end Argument

/-- Rust `Instruction` from instruction.rs, with the payload types exactly as
declared there. -/
inductive Instruction where
  | HALT
  | SET (r : Register) (a : Argument)
  | PUSH (a : Argument)
  | POP (r : Register)
  | EQ (r : Register) (a b : Argument)
  | GT (r : Register) (a b : Argument)
  | JMP (a : Argument)
  | JT (a b : Argument)
  | JF (a b : Argument)
  | ADD (r : Register) (a b : Argument)
  | MULT (r : Register) (a b : Argument)
  | MOD (r : Register) (a b : Argument)
  | AND (r : Register) (a b : Argument)
  | OR (r : Register) (a b : Argument)
  | NOT (r : Register) (a : Argument)
  | RMEM (r : Register) (a : Address)
  | WMEM (a : Address) (arg : Argument)
  | CALL (a : Address)
  | RET
  | OUT (a : Argument)
  | IN (a : Address)
  | NOOP
deriving DecidableEq, Repr

namespace Instruction

/-- Rust `Instruction::arg_count`: the static arity table; unknown opcodes give
`none`. -/
def arg_count : Nat → Option Nat
  | 0 => some 0
  | 1 => some 2
  | 2 => some 1
  | 3 => some 1
  | 4 => some 3
  | 5 => some 3
  | 6 => some 1
  | 7 => some 2
  | 8 => some 2
  | 9 => some 3
  | 10 => some 3
  | 11 => some 3
  | 12 => some 3
  | 13 => some 3
  | 14 => some 2
  | 15 => some 2
  | 16 => some 2
  | 17 => some 1
  | 18 => some 0
  | 19 => some 1
  | 20 => some 1
  | 21 => some 0
  | _ => none

/-- Rust `Instruction::to_u16_sequence`. -/
def to_u16_sequence : Instruction → List Nat
  | .HALT => [0]
  | .SET r a => [1, r.to_u16, a.to_u16]
  | .PUSH a => [2, a.to_u16]
  | .POP r => [3, r.to_u16]
  | .EQ r a b => [4, r.to_u16, a.to_u16, b.to_u16]
  | .GT r a b => [5, r.to_u16, a.to_u16, b.to_u16]
  | .JMP a => [6, a.to_u16]
  | .JT a b => [7, a.to_u16, b.to_u16]
  | .JF a b => [8, a.to_u16, b.to_u16]
  | .ADD r a b => [9, r.to_u16, a.to_u16, b.to_u16]
  | .MULT r a b => [10, r.to_u16, a.to_u16, b.to_u16]
  | .MOD r a b => [11, r.to_u16, a.to_u16, b.to_u16]
  | .AND r a b => [12, r.to_u16, a.to_u16, b.to_u16]
  | .OR r a b => [13, r.to_u16, a.to_u16, b.to_u16]
  | .NOT r a => [14, r.to_u16, a.to_u16]
  | .RMEM r a => [15, r.to_u16, a.value]
  | .WMEM a arg => [16, a.value, arg.to_u16]
  | .CALL a => [17, a.value]
  | .RET => [18]
  | .OUT a => [19, a.to_u16]
  | .IN a => [20, a.value]
  | .NOOP => [21]

/-- Panicking `Vec` index, `seq[i]`. -/
def idx (seq : List Nat) (i : Nat) : Panic Nat :=
  match seq.get? i with
  | some v => .ok v
  | none => .panicked

/-- Rust `Instruction::from_u16_sequence`: `Some`/`None` is the Rust return
value; operand construction (`Register::new`, `Argument::new`) can panic. -/
def from_u16_sequence (seq : List Nat) : Panic (Option Instruction) := do
  let opcode ← idx seq 0
  match opcode with
  | 0 => return some .HALT
  | 1 => do
      let r ← Register.new (← idx seq 1)
      let a ← Argument.new (← idx seq 2)
      return some (.SET r a)
  | 2 => do
      let a ← Argument.new (← idx seq 1)
      return some (.PUSH a)
  | 3 => do
      let r ← Register.new (← idx seq 1)
      return some (.POP r)
  | 4 => do
      let r ← Register.new (← idx seq 1)
      let a ← Argument.new (← idx seq 2)
      let b ← Argument.new (← idx seq 3)
      return some (.EQ r a b)
  | 5 => do
      let r ← Register.new (← idx seq 1)
      let a ← Argument.new (← idx seq 2)
      let b ← Argument.new (← idx seq 3)
      return some (.GT r a b)
  | 6 => do
      let a ← Argument.new (← idx seq 1)
      return some (.JMP a)
  | 7 => do
      let a ← Argument.new (← idx seq 1)
      let b ← Argument.new (← idx seq 2)
      return some (.JT a b)
  | 8 => do
      let a ← Argument.new (← idx seq 1)
      let b ← Argument.new (← idx seq 2)
      return some (.JF a b)
  | 9 => do
      let r ← Register.new (← idx seq 1)
      let a ← Argument.new (← idx seq 2)
      let b ← Argument.new (← idx seq 3)
      return some (.ADD r a b)
  | 10 => do
      let r ← Register.new (← idx seq 1)
      let a ← Argument.new (← idx seq 2)
      let b ← Argument.new (← idx seq 3)
      return some (.MULT r a b)
  | 11 => do
      let r ← Register.new (← idx seq 1)
      let a ← Argument.new (← idx seq 2)
      let b ← Argument.new (← idx seq 3)
      return some (.MOD r a b)
  | 12 => do
      let r ← Register.new (← idx seq 1)
      let a ← Argument.new (← idx seq 2)
      let b ← Argument.new (← idx seq 3)
      return some (.AND r a b)
  | 13 => do
      let r ← Register.new (← idx seq 1)
      let a ← Argument.new (← idx seq 2)
      let b ← Argument.new (← idx seq 3)
      return some (.OR r a b)
  | 14 => do
      let r ← Register.new (← idx seq 1)
      let a ← Argument.new (← idx seq 2)
      return some (.NOT r a)
  | 15 => do
      let r ← Register.new (← idx seq 1)
      let a ← idx seq 2
      return some (.RMEM r (Address.new a))
  | 16 => do
      let a ← idx seq 1
      let arg ← Argument.new (← idx seq 2)
      return some (.WMEM (Address.new a) arg)
  | 17 => do
      let a ← idx seq 1
      return some (.CALL (Address.new a))
  | 18 => return some .RET
  | 19 => do
      let a ← Argument.new (← idx seq 1)
      return some (.OUT a)
  | 20 => do
      let a ← idx seq 1
      return some (.IN (Address.new a))
  | 21 => return some .NOOP
  | _ => return none

/-- Whether the instruction is the (blocking, stdin-consuming) `IN`. -/
def isInput : Instruction → Bool
  | .IN _ => true
  | _ => false

end Instruction

/-- Rust `VMState` from vm.rs. -/
inductive VMState where
  | RUN
  | HALT
deriving DecidableEq, Repr

/-- Rust `VMError` from vm.rs. -/
inductive VMError where
  | BadOpcode (w : Nat)
  | InvalidMemoryAccess (a : Address)
  | MalformedInstruction (ws : List Nat)
  | InvalidCharacterArgument (a : Argument)
  | JumpOutOfBounds (a : Address)
  | StackUnderflow
  | UnknownError
deriving DecidableEq, Repr

/-- Rust `VMResult = Result<VMState, VMError>` from vm.rs. -/
abbrev VMResult := Except VMError VMState

instance : DecidableEq VMResult := fun x y =>
  match x, y with
  | .ok a, .ok b =>
      if h : a = b then .isTrue (by rw [h]) else .isFalse (by intro hh; cases hh; exact h rfl)
  | .error a, .error b =>
      if h : a = b then .isTrue (by rw [h]) else .isFalse (by intro hh; cases hh; exact h rfl)
  | .ok _, .error _ => .isFalse (by intro h; cases h)
  | .error _, .ok _ => .isFalse (by intro h; cases h)

/-- The machine state of `VM` from vm.rs.  `memory` models
`[u16; U15_MAX as usize]` (32767 cells) and `registers` models `[u16; 8]`;
the Rust array types fix those lengths, `VM.init` establishes them.
The head of `stack` is the top (the end of the Rust `Vec`). -/
structure VM where
  instruction_pointer : Address
  stack : List Nat
  memory : List Nat
  registers : List Nat
  current_state : VMState
deriving DecidableEq, Repr

/-- The outcome of one fetch-decode-execute step, together with the
explicit I/O streams: the remaining stdin bytes and the bytes written to
stdout during the step. -/
structure StepOut where
  res : VMResult
  vm : VM
  stdin : List Nat
  out : List Nat
deriving DecidableEq, Repr

namespace VM

/-- Rust `VM::init`: zeroed machine, `HALT` state; the memory store has
`U15_MAX as usize = 32767` cells. -/
def init : VM where
  instruction_pointer := Address.new 0
  stack := []
  memory := List.replicate U15_MAX 0
  registers := List.replicate 8 0
  current_state := .HALT

/-- Rust `VM::is_running`. -/
def is_running (vm : VM) : Bool := vm.current_state = VMState.RUN

/-- Rust `VM::read_register`: `self.registers[r.as_index()]`.  `as_index` is
0..7 and the Rust array type fixes the length at 8, so the index is always
in bounds. -/
def read_register (vm : VM) (r : Register) : Nat :=
  (vm.registers.get? r.as_index).getD 0

/-- Rust `VM::parse_argument`: a literal yields its value, a register
reference reads the register. -/
def parse_argument (vm : VM) (arg : Argument) : Nat :=
  match arg with
  | .Literal v => v.val
  | .Register r => vm.read_register r

/-- Rust `VM::write_register`: stores the parsed argument raw; always
`Ok(RUN)`. -/
def write_register (vm : VM) (r : Register) (a : Argument) : VMResult × VM :=
  (.ok .RUN, { vm with registers := vm.registers.set r.as_index (vm.parse_argument a) })

/-- Rust `VM::write_memory`: `self.memory[address.value() as usize] = value`;
an index at or past the 32767-cell end panics. -/
def write_memory (vm : VM) (address : Address) (value : Nat) : Panic VM :=
  if address.value < vm.memory.length then
    .ok { vm with memory := vm.memory.set address.value value }
  else
    .panicked

/-- Rust `VM::read_memory`: `Err(InvalidMemoryAccess)` when the address is
invalid (≥ 32776); otherwise indexes the store, panicking when the index
is at or past its 32767-cell end (values 32767..=32775). -/
def read_memory (vm : VM) (location : Address) : Panic (Except VMError Nat) :=
  if location.is_invalid then .ok (.error (.InvalidMemoryAccess location))
  else
    match vm.memory.get? location.to_usize with
    | some v => .ok (.ok v)
    | none => .panicked

/-- Rust `VM::load_program`: writes the bytecode to consecutive cells starting
at `offset`; panics ("ran out of memory") once the write address goes
invalid.  (Writes at valid addresses 32767..=32775 panic inside
`write_memory` instead.) -/
def load_program (vm : VM) (offset : Address) : List Nat → Panic VM
  | [] => .ok vm
  | v :: rest => do
      if offset.is_valid then
        let vm' ← vm.write_memory offset v
        load_program vm' offset.next rest
      else
        .panicked

/-- Rust `VM::check_true`: the parsed argument is non-zero. -/
def check_true (vm : VM) (arg : Argument) : Bool :=
  decide (0 < vm.parse_argument arg)

/-- Rust `VM::jump`: resolve the target, require a memory-class address;
register-class or invalid targets are `JumpOutOfBounds`. -/
def jump (vm : VM) (arg : Argument) : VMResult × VM :=
  let target := vm.parse_argument arg
  let addr := Address.new target
  if addr.is_memory then
    (.ok .RUN, { vm with instruction_pointer := addr })
  else if addr.is_register || addr.is_invalid then
    (.error (.JumpOutOfBounds addr), vm)
  else
    (.error .UnknownError, vm)

/-- Rust `VM::push`: parses the argument and pushes the raw value. -/
def push (vm : VM) (arg : Argument) : VM :=
  { vm with stack := vm.parse_argument arg :: vm.stack }

/-- Rust `VM::pop`: pops into the register; `StackUnderflow` when empty.  The
popped raw word is reclassified via `Argument::new` (panics ≥ 32776). -/
def pop (vm : VM) (r : Register) : Panic (VMResult × VM) :=
  match vm.stack with
  | [] => .ok (.error .StackUnderflow, vm)
  | v :: rest => (Argument.new v).map fun a => write_register { vm with stack := rest } r a

/-- Rust `VM::ret`: pop and jump; an empty stack halts cleanly. -/
def ret (vm : VM) : Panic (VMResult × VM) :=
  match vm.stack with
  | [] => .ok (.ok .HALT, vm)
  | v :: rest => (Argument.new v).map fun a => jump { vm with stack := rest } a

/-- Rust `VM::call`: push the current instruction pointer (already past the
CALL's argument), then jump; the pushed pointer is reclassified via
`Argument::new`. -/
def call (vm : VM) (a : Argument) : Panic (VMResult × VM) :=
  let cur_ptr := vm.instruction_pointer.value
  (Argument.new cur_ptr).map fun arg => jump (push vm arg) a

/-- Rust `VM::rmem`: resolve the source to an address, read memory, store in
the register; a failed read is `InvalidMemoryAccess`. -/
def rmem (vm : VM) (r : Register) (a : Argument) : Panic (VMResult × VM) :=
  let addr := Address.new (vm.parse_argument a)
  (vm.read_memory addr).map fun res =>
    match res with
    | .ok mem => vm.write_register r (.Literal ⟨mem⟩)
    | .error _ => (.error (.InvalidMemoryAccess addr), vm)

/-- Rust `VM::wmem`: resolve both operands and write memory. -/
def wmem (vm : VM) (t v : Argument) : Panic (VMResult × VM) :=
  let target := Address.new (vm.parse_argument t)
  let value := vm.parse_argument v
  (vm.write_memory target value).map fun vm' => (.ok .RUN, vm')

/-- Rust `VM::write_output`: truncates the parsed value to a byte
(`as u8`), then errors if the byte is not ASCII (> 127); otherwise emits
that one byte. -/
def write_output (vm : VM) (arg : Argument) : VMResult × List Nat :=
  let chr := vm.parse_argument arg % 256
  if 127 < chr then (.error (.InvalidCharacterArgument arg), [])
  else (.ok .RUN, [chr])

/-- Rust `VM::read_input`: reads one byte from stdin into a zero-initialized
buffer (EOF leaves the 0), then writes it to the literal memory target or
the register. -/
def read_input (vm : VM) (a : Argument) (stdin : List Nat) :
    Panic (VMResult × VM × List Nat) :=
  let byte := (stdin.head?.getD 0) % 256
  let stdin' := stdin.tail
  match a with
  | .Literal addr =>
      (vm.write_memory (Address.new addr.val) byte).map fun vm' => (.ok .RUN, vm', stdin')
  | .Register r =>
      (Argument.new byte).map fun arg =>
        let (res, vm') := vm.write_register r arg
        (res, vm', stdin')

/-- Rust `VM::execute_instruction`, with the I/O streams made explicit.  The
`RMEM`/`WMEM`/`CALL`/`IN` payloads, declared as `Address` in
instruction.rs, are reclassified as `Argument`s at this boundary (vm.rs
applies its `Argument`-typed helpers — `rmem`, `wmem`, `call`,
`read_input` — to them, and its tests construct them via
`Argument::new`). -/
def execute_instruction (vm : VM) (instruction : Instruction) (stdin : List Nat) :
    Panic StepOut :=
  match instruction with
  | .HALT => .ok ⟨.ok .HALT, vm, stdin, []⟩
  | .SET r a =>
      let (res, vm') := vm.write_register r a
      .ok ⟨res, vm', stdin, []⟩
  | .PUSH arg => .ok ⟨.ok .RUN, vm.push arg, stdin, []⟩
  | .POP r => (vm.pop r).map fun (res, vm') => ⟨res, vm', stdin, []⟩
  | .EQ r arg_a arg_b => do
      let a : u15 := ⟨vm.parse_argument arg_a⟩
      let b : u15 := ⟨vm.parse_argument arg_b⟩
      let v ← Argument.new (if a = b then 1 else 0)
      let (res, vm') := vm.write_register r v
      return ⟨res, vm', stdin, []⟩
  | .GT r arg_a arg_b => do
      let a : u15 := ⟨vm.parse_argument arg_a⟩
      let b : u15 := ⟨vm.parse_argument arg_b⟩
      let v ← Argument.new (if b.val < a.val then 1 else 0)
      let (res, vm') := vm.write_register r v
      return ⟨res, vm', stdin, []⟩
  | .JMP a =>
      let (res, vm') := vm.jump a
      .ok ⟨res, vm', stdin, []⟩
  | .JT a b =>
      if vm.check_true a then
        let (res, vm') := vm.jump b
        .ok ⟨res, vm', stdin, []⟩
      else .ok ⟨.ok .RUN, vm, stdin, []⟩
  | .JF a b =>
      if ! vm.check_true a then
        let (res, vm') := vm.jump b
        .ok ⟨res, vm', stdin, []⟩
      else .ok ⟨.ok .RUN, vm, stdin, []⟩
  | .ADD r arg_a arg_b =>
      let a : u15 := ⟨vm.parse_argument arg_a⟩
      let b : u15 := ⟨vm.parse_argument arg_b⟩
      let (res, vm') := vm.write_register r (.Literal (a.add b))
      .ok ⟨res, vm', stdin, []⟩
  | .MULT r arg_a arg_b =>
      let a : u15 := ⟨vm.parse_argument arg_a⟩
      let b : u15 := ⟨vm.parse_argument arg_b⟩
      let (res, vm') := vm.write_register r (.Literal (a.mul b))
      .ok ⟨res, vm', stdin, []⟩
  | .MOD r arg_a arg_b => do
      let a : u15 := ⟨vm.parse_argument arg_a⟩
      let b : u15 := ⟨vm.parse_argument arg_b⟩
      let m ← a.rem b
      let (res, vm') := vm.write_register r (.Literal m)
      return ⟨res, vm', stdin, []⟩
  | .AND r arg_a arg_b =>
      let a : u15 := ⟨vm.parse_argument arg_a⟩
      let b : u15 := ⟨vm.parse_argument arg_b⟩
      let (res, vm') := vm.write_register r (.Literal (a.land b))
      .ok ⟨res, vm', stdin, []⟩
  | .OR r arg_a arg_b =>
      let a : u15 := ⟨vm.parse_argument arg_a⟩
      let b : u15 := ⟨vm.parse_argument arg_b⟩
      let (res, vm') := vm.write_register r (.Literal (a.lor b))
      .ok ⟨res, vm', stdin, []⟩
  | .NOT r arg_a =>
      let a : u15 := ⟨vm.parse_argument arg_a⟩
      let (res, vm') := vm.write_register r (.Literal a.not)
      .ok ⟨res, vm', stdin, []⟩
  | .RMEM r a => do
      let arg ← Argument.new a.value
      let (res, vm') ← vm.rmem r arg
      return ⟨res, vm', stdin, []⟩
  | .WMEM a b => do
      let t ← Argument.new a.value
      let (res, vm') ← vm.wmem t b
      return ⟨res, vm', stdin, []⟩
  | .CALL a => do
      let arg ← Argument.new a.value
      let (res, vm') ← vm.call arg
      return ⟨res, vm', stdin, []⟩
  | .RET => vm.ret.map fun (res, vm') => ⟨res, vm', stdin, []⟩
  | .OUT a =>
      let (res, out) := vm.write_output a
      .ok ⟨res, vm, stdin, out⟩
  | .IN a => do
      let arg ← Argument.new a.value
      let (res, vm', stdin') ← vm.read_input arg stdin
      return ⟨res, vm', stdin', []⟩
  | .NOOP => .ok ⟨.ok .RUN, vm, stdin, []⟩

/-- Rust `VM::advance`: read the cell at the instruction pointer, then step
the pointer forward (the pointer moves even when the read failed). -/
def advance (vm : VM) : Panic (Except VMError Nat × VM) :=
  (vm.read_memory vm.instruction_pointer).map fun ret =>
    (ret, { vm with instruction_pointer := vm.instruction_pointer.next })

/-- The argument-reading loop of `VM::current_instruction`: advance `n`
times, appending each word to the collected sequence. -/
def read_args : Nat → VM → List Nat → Panic (Except VMError (List Nat) × VM)
  | 0, vm, acc => .ok (.ok acc, vm)
  | n + 1, vm, acc => do
      let (r, vm') ← vm.advance
      match r with
      | .error e => .ok (.error e, vm')
      | .ok w => read_args n vm' (acc ++ [w])

/-- Rust `VM::current_instruction`: fetch the opcode, look up the arity
(`BadOpcode` if unknown), fetch the arguments, then decode;
`from_u16_sequence` returning `None` is a `MalformedInstruction`. -/
def current_instruction (vm : VM) : Panic (Except VMError Instruction × VM) := do
  let (r, vm1) ← vm.advance
  match r with
  | .error e => .ok (.error e, vm1)
  | .ok opcode =>
    match Instruction.arg_count opcode with
    | none => .ok (.error (.BadOpcode opcode), vm1)
    | some n => do
      let (rs, vm2) ← read_args n vm1 [opcode]
      match rs with
      | .error e => .ok (.error e, vm2)
      | .ok seq =>
        match ← Instruction.from_u16_sequence seq with
        | some i => .ok (.ok i, vm2)
        | none => .ok (.error (.MalformedInstruction seq), vm2)

/-- Rust `VM::step`: fetch-decode, then execute; a decode failure is returned
with the decode's pointer advance retained. -/
def step (vm : VM) (stdin : List Nat) : Panic StepOut := do
  let (r, vm') ← vm.current_instruction
  match r with
  | .ok i => execute_instruction vm' i stdin
  | .error e => .ok ⟨.error e, vm', stdin, []⟩

/-- The `while self.is_running()` loop of `VM::run`, given termination
fuel (the Rust loop may run forever; exhausted fuel reports the machine
as it stands).  On `Ok(state)` the run state is updated and the loop
continues; an error is returned at once. -/
def run_loop : Nat → VM → List Nat → Panic StepOut
  | 0, vm, stdin => .ok ⟨.ok vm.current_state, vm, stdin, []⟩
  | fuel + 1, vm, stdin =>
      if vm.is_running then do
        let s ← vm.step stdin
        match s.res with
        | .error e => .ok ⟨.error e, s.vm, s.stdin, s.out⟩
        | .ok state =>
            (run_loop fuel { s.vm with current_state := state } s.stdin).map
              fun t => ⟨t.res, t.vm, t.stdin, s.out ++ t.out⟩
      else .ok ⟨.ok vm.current_state, vm, stdin, []⟩

/-- Rust `VM::run`: set the start position and `RUN`, then loop. -/
def run (vm : VM) (start_position : Address) (stdin : List Nat) (fuel : Nat) :
    Panic StepOut :=
  run_loop fuel
    { vm with instruction_pointer := start_position, current_state := .RUN } stdin

end VM

/-- An `Argument` value in its legal encoding range: literals carry a
15-bit value.  (`Argument::new` only ever builds such arguments.) -/
def Argument.legal : Argument → Bool
  | .Literal u => decide (u.val < MODULUS)
  | .Register _ => true

/-- An `Instruction` whose `Argument` payloads are all in their legal
encoding ranges (register and address payloads encode faithfully for
every value). -/
def Instruction.legal : Instruction → Bool
  | .HALT => true
  | .SET _ a => a.legal
  | .PUSH a => a.legal
  | .POP _ => true
  | .EQ _ a b => a.legal && b.legal
  | .GT _ a b => a.legal && b.legal
  | .JMP a => a.legal
  | .JT a b => a.legal && b.legal
  | .JF a b => a.legal && b.legal
  | .ADD _ a b => a.legal && b.legal
  | .MULT _ a b => a.legal && b.legal
  | .MOD _ a b => a.legal && b.legal
  | .AND _ a b => a.legal && b.legal
  | .OR _ a b => a.legal && b.legal
  | .NOT _ a => a.legal
  | .RMEM _ _ => true
  | .WMEM _ arg => arg.legal
  | .CALL _ => true
  | .RET => true
  | .OUT a => a.legal
  | .IN _ => true
  | .NOOP => true

/-- The machine-state well-formedness the Rust types enforce: the
instruction pointer and every memory cell, register and stack entry is a
16-bit value, the memory store has its `[u16; U15_MAX]` length and the
register file its `[u16; 8]` length. -/
def GoodVM (vm : VM) : Prop :=
  vm.instruction_pointer.val < U16_MOD ∧
  vm.memory.length = U15_MAX ∧
  vm.registers.length = 8 ∧
  (∀ x ∈ vm.memory, x < U16_MOD) ∧
  (∀ x ∈ vm.registers, x < U16_MOD) ∧
  (∀ x ∈ vm.stack, x < U16_MOD)

/-- Machine states reachable from `VM::init` by `load_program` (of 16-bit
word streams), `step` and `run` calls, as the spec's state lifecycle
describes. -/
inductive Reachable : VM → Prop where
  | base : Reachable VM.init
  | load {vm vm' : VM} (offset : Address) (prog : List Nat) :
      Reachable vm → (∀ w ∈ prog, w < U16_MOD) →
      vm.load_program offset prog = .ok vm' → Reachable vm'
  | stepped {vm : VM} (stdin : List Nat) (s : StepOut) :
      Reachable vm → vm.step stdin = .ok s → Reachable s.vm
  | ran {vm : VM} (start : Address) (stdin : List Nat) (fuel : Nat) (s : StepOut) :
      Reachable vm → start.val < U16_MOD →
      vm.run start stdin fuel = .ok s → Reachable s.vm

/-- The observable part of a `step` outcome that does not involve the
input stream: the result, the machine state and the bytes written. -/
def VM.stepObservables (vm : VM) (stdin : List Nat) :
    Panic (VMResult × VM × List Nat) :=
  Panic.map (fun s => (s.res, s.vm, s.out)) (vm.step stdin)

/-- Rust `step` leaves the input stream untouched (no byte consumed). -/
def VM.stepKeepsStdin (vm : VM) (stdin : List Nat) : Prop :=
  ∀ s : StepOut, vm.step stdin = .ok s → s.stdin = stdin

/-- A machine about to execute `CALL R0` (cells `[17, 32768]`) whose
register 0 holds the out-of-range value 40000. -/
def vmCallErr : VM where
  instruction_pointer := Address.new 0
  stack := []
  memory := [17, 32768] ++ List.replicate 32765 0
  registers := [40000, 0, 0, 0, 0, 0, 0, 0]
  current_state := .RUN

/-- A machine whose program is `ADD R0 R0 40000` — an `ADD` whose third
operand word 40000 is malformed (≥ 32776). -/
def vmMalformed : VM where
  instruction_pointer := Address.new 0
  stack := []
  memory := [9, 32768, 40000] ++ List.replicate 32764 0
  registers := List.replicate 8 0
  current_state := .RUN

/-- A machine about to execute `POP R0` (cells `[3, 32768]`) with an
empty stack. -/
def vmPopEmpty : VM where
  instruction_pointer := Address.new 0
  stack := []
  memory := [3, 32768] ++ List.replicate 32765 0
  registers := List.replicate 8 0
  current_state := .RUN

/-- A machine about to execute `NOOP` (cell `[21]`). -/
def vmNoop : VM where
  instruction_pointer := Address.new 0
  stack := []
  memory := [21] ++ List.replicate 32766 0
  registers := List.replicate 8 0
  current_state := .RUN

/-- How the stack after a failed instruction relates to the stack before
it: unchanged, except that `CALL` has already pushed the return pointer
and `RET` has already popped it. -/
def stackEffect (i : Instruction) (oldStack newStack : List Nat) : Prop :=
  match i with
  | .CALL _ => ∃ v, newStack = v :: oldStack
  | .RET => ∃ v, oldStack = v :: newStack
  | _ => newStack = oldStack

@[simp] theorem Panic.map_ok {α β : Type} (f : α → β) (a : α) :
    Panic.map f (.ok a) = .ok (f a) := rfl

@[simp] theorem Panic.map_panicked {α β : Type} (f : α → β) :
    Panic.map f (.panicked : Panic α) = .panicked := rfl

@[simp] theorem Panic.bind_ok {α β : Type} (a : α) (f : α → Panic β) :
    Panic.bind (.ok a) f = f a := rfl

@[simp] theorem Panic.bind_panicked {α β : Type} (f : α → Panic β) :
    Panic.bind (.panicked : Panic α) f = .panicked := rfl

@[simp] theorem Panic.map_map {α β γ : Type} (f : α → β) (g : β → γ) (p : Panic α) :
    Panic.map g (Panic.map f p) = Panic.map (fun a => g (f a)) p := by
  cases p <;> rfl

theorem Panic.map_eq_ok {α β : Type} {f : α → β} {p : Panic α} {b : β} :
    Panic.map f p = .ok b → ∃ a, p = .ok a ∧ b = f a := by
  cases p with
  | ok a => intro h; exact ⟨a, rfl, by cases h; rfl⟩
  | panicked => intro h; cases h

@[simp] theorem Panic.bind_eq {α β : Type} (p : Panic α) (f : α → Panic β) :
    Bind.bind p f = Panic.bind p f := rfl

@[simp] theorem Panic.pure_eq {α : Type} (a : α) :
    (Pure.pure a : Panic α) = Panic.ok a := rfl

theorem Panic.bind_eq_ok {α β : Type} {p : Panic α} {f : α → Panic β} {b : β} :
    Panic.bind p f = .ok b → ∃ a, p = .ok a ∧ f a = .ok b := by
  cases p with
  | ok a => intro h; exact ⟨a, rfl, h⟩
  | panicked => intro h; cases h

theorem Address.is_invalid_of_ge {a : Address} (h : 32776 ≤ a.val) :
    a.is_invalid = true := by
  simp [Address.is_invalid, Address.is_valid, REGISTER_7]; omega

theorem Address.is_invalid_of_le {a : Address} (h : a.val ≤ 32775) :
    a.is_invalid = false := by
  simp [Address.is_invalid, Address.is_valid, REGISTER_7]; omega

theorem VM.read_memory_invalid {vm : VM} {loc : Address} (h : loc.is_invalid = true) :
    vm.read_memory loc = .ok (.error (.InvalidMemoryAccess loc)) := by
  unfold VM.read_memory
  rw [h]
  rfl

theorem VM.read_memory_some {vm : VM} {loc : Address} {v : Nat}
    (h : loc.is_invalid = false) (hv : vm.memory.get? loc.to_usize = some v) :
    vm.read_memory loc = .ok (.ok v) := by
  unfold VM.read_memory
  rw [h, hv]
  rfl

theorem VM.read_memory_oob {vm : VM} {loc : Address}
    (h : loc.is_invalid = false) (hv : vm.memory.get? loc.to_usize = none) :
    vm.read_memory loc = Panic.panicked := by
  unfold VM.read_memory
  rw [h, hv]
  rfl

theorem VM.write_memory_ok {vm : VM} {a : Address} {v : Nat}
    (h : a.value < vm.memory.length) :
    vm.write_memory a v = .ok { vm with memory := vm.memory.set a.value v } := by
  unfold VM.write_memory
  rw [if_pos h]

theorem VM.advance_error {vm : VM} {e : VMError}
    (h : vm.read_memory vm.instruction_pointer = .ok (.error e)) :
    vm.advance = .ok (.error e,
      { vm with instruction_pointer := vm.instruction_pointer.next }) := by
  unfold VM.advance
  rw [h]
  rfl

theorem VM.advance_ok {vm : VM} {w : Nat}
    (h : vm.read_memory vm.instruction_pointer = .ok (.ok w)) :
    vm.advance = .ok (.ok w,
      { vm with instruction_pointer := vm.instruction_pointer.next }) := by
  unfold VM.advance
  rw [h]
  rfl

theorem VM.advance_panic {vm : VM}
    (h : vm.read_memory vm.instruction_pointer = Panic.panicked) :
    vm.advance = Panic.panicked := by
  unfold VM.advance
  rw [h]
  rfl

theorem VM.current_instruction_of_advance_error {vm vm' : VM} {e : VMError}
    (h : vm.advance = .ok (.error e, vm')) :
    vm.current_instruction = .ok (.error e, vm') := by
  unfold VM.current_instruction
  rw [h]
  rfl

theorem VM.current_instruction_of_advance_panic {vm : VM}
    (h : vm.advance = Panic.panicked) :
    vm.current_instruction = Panic.panicked := by
  unfold VM.current_instruction
  rw [h]
  rfl

theorem VM.step_decode_error {vm vm' : VM} {e : VMError} (stdin : List Nat)
    (h : vm.current_instruction = .ok (.error e, vm')) :
    vm.step stdin = .ok ⟨.error e, vm', stdin, []⟩ := by
  unfold VM.step
  rw [h]
  rfl

theorem VM.step_panic {vm : VM} (stdin : List Nat)
    (h : vm.current_instruction = Panic.panicked) :
    vm.step stdin = Panic.panicked := by
  unfold VM.step
  rw [h]
  rfl

theorem VM.step_exec {vm vm' : VM} {i : Instruction} (stdin : List Nat)
    (h : vm.current_instruction = .ok (.ok i, vm')) :
    vm.step stdin = vm'.execute_instruction i stdin := by
  unfold VM.step
  rw [h]
  rfl

/-- C4: `VM::init` allocates `U15_MAX = 32767` zeroed memory cells — not
the 32,768 the spec states — along with 8 zero registers, an empty stack
and the `HALT` run state; its own memory-class address 32767 therefore
indexes out of bounds (a panic) instead of reaching a 32,768th cell. -/
theorem init_allocates_32767_cells :
    VM.init.memory = List.replicate U15_MAX 0 ∧
    VM.init.memory.length = 32767 ∧
    VM.init.registers = List.replicate 8 0 ∧
    VM.init.stack = [] ∧
    VM.init.current_state = VMState.HALT ∧
    (Address.new 32767).is_memory = true ∧
    VM.init.read_memory (Address.new 32767) = Panic.panicked := by
  have hlen : VM.init.memory.length = 32767 := by
    rw [show VM.init.memory = List.replicate U15_MAX 0 from rfl, List.length_replicate]
    decide
  refine ⟨rfl, hlen, rfl, rfl, rfl, by decide, ?_⟩
  refine VM.read_memory_oob (Address.is_invalid_of_le (by decide)) ?_
  rw [List.get?_eq_none, hlen]
  decide

/-- C6: `u15` arithmetic is modular — for Words `a`, `b` (≤ 32767),
`add` is addition mod 2^15, `mul` is multiplication mod 2^15, `not` is
the 16-bit complement masked to 15 bits, and every result is again a
Word. -/
theorem word_arithmetic_modular (a b : u15) (ha : a.val ≤ U15_MAX) (hb : b.val ≤ U15_MAX) :
    (a.add b).val = (a.val + b.val) % 2 ^ 15 ∧
    (a.mul b).val = (a.val * b.val) % 2 ^ 15 ∧
    a.not.val = (a.val ^^^ 65535) &&& 0x7FFF ∧
    (a.add b).val ≤ 32767 ∧ (a.mul b).val ≤ 32767 ∧ a.not.val ≤ 32767 := by
  have hdvd : (32768 : Nat) ∣ 65536 := ⟨2, rfl⟩
  have hadd : (a.add b).val = (a.val + b.val) % 2 ^ 15 := by
    show (a.val + b.val) % 65536 % 32768 = (a.val + b.val) % 32768
    exact Nat.mod_mod_of_dvd _ hdvd
  have hmul : (a.mul b).val = (a.val * b.val) % 2 ^ 15 := by
    show (a.val * b.val) % 65536 % 32768 = (a.val * b.val) % 32768
    exact Nat.mod_mod_of_dvd _ hdvd
  have hnot : a.not.val = (a.val ^^^ 65535) &&& 0x7FFF := by
    have h15 := Nat.and_pow_two_sub_one_eq_mod (a.val ^^^ 65535) 15
    show (a.val ^^^ 65535) % 2 ^ 15 = (a.val ^^^ 65535) &&& 32767
    rw [← h15]
  refine ⟨hadd, hmul, hnot, ?_, ?_, ?_⟩
  · rw [hadd]; have := Nat.mod_lt (a.val + b.val) (show 0 < 2 ^ 15 by norm_num); omega
  · rw [hmul]; have := Nat.mod_lt (a.val * b.val) (show 0 < 2 ^ 15 by norm_num); omega
  · show (a.val ^^^ 65535) % 32768 ≤ 32767
    have := Nat.mod_lt (a.val ^^^ 65535) (show 0 < 32768 by norm_num)
    omega

/-- C6 witness at Words 5 and 32767. -/
theorem word_arithmetic_modular_witness :
    (u15.add ⟨5⟩ ⟨32767⟩).val = (5 + 32767) % 2 ^ 15 ∧
    (u15.mul ⟨5⟩ ⟨32767⟩).val = (5 * 32767) % 2 ^ 15 ∧
    (u15.not ⟨5⟩).val = ((5 : Nat) ^^^ 65535) &&& 0x7FFF ∧
    (u15.add ⟨5⟩ ⟨32767⟩).val ≤ 32767 ∧ (u15.mul ⟨5⟩ ⟨32767⟩).val ≤ 32767 ∧
    (u15.not ⟨5⟩).val ≤ 32767 :=
  word_arithmetic_modular ⟨5⟩ ⟨32767⟩ (by decide) (by decide)

/-- C9 counterexample: `OUT` of the resolved value 256 — greater than
127 — does not fail; it emits the masked byte 0. -/
theorem out_of_256_succeeds :
    VM.init.write_output (.Literal ⟨256⟩) = (.ok .RUN, [0]) ∧ 127 < 256 := by
  constructor
  · rfl
  · decide

/-- C9 (amended): `OUT` truncates the resolved value to its low 8 bits
first and errors exactly when that byte exceeds 127; otherwise it emits
the byte. -/
theorem write_output_checks_low_byte (vm : VM) (arg : Argument) :
    (127 < vm.parse_argument arg % 256 →
      vm.write_output arg = (.error (.InvalidCharacterArgument arg), [])) ∧
    (vm.parse_argument arg % 256 ≤ 127 →
      vm.write_output arg = (.ok .RUN, [vm.parse_argument arg % 256])) := by
  unfold VM.write_output
  constructor <;> intro h
  · rw [if_pos h]
  · rw [if_neg (by omega)]

/-- C9 witness: `OUT 200` errors, `OUT 65` emits byte 65. -/
theorem write_output_checks_low_byte_witness :
    VM.init.write_output (.Literal ⟨200⟩) =
      (.error (.InvalidCharacterArgument (.Literal ⟨200⟩)), []) ∧
    VM.init.write_output (.Literal ⟨65⟩) = (.ok .RUN, [65]) :=
  ⟨(write_output_checks_low_byte VM.init (.Literal ⟨200⟩)).1 (by decide),
   (write_output_checks_low_byte VM.init (.Literal ⟨65⟩)).2 (by decide)⟩

/-- C8 counterexample: `Address::next` is not a saturating increment
within the legal range — it steps 32775 (legal) to 32776 (invalid),
steps the last memory cell 32767 out of the memory class, and wraps
65535 to 0. -/
theorem address_next_no_saturation :
    (Address.new 32775).is_valid = true ∧
    (Address.new 32775).next = Address.new 32776 ∧
    (Address.new 32776).is_valid = false ∧
    (Address.new 32767).is_memory = true ∧
    (Address.new 32767).next = Address.new 32768 ∧
    (Address.new 32768).is_memory = false ∧
    (Address.new 65535).next = Address.new 0 := by decide

/-- C8 (amended): `Address::next` is a plain increment by one (wrapping
at 2^16) with no saturation or range check; an out-of-range pointer
surfaces only at the next fetch — as `InvalidMemoryAccess` for invalid
values (≥ 32776), and as an out-of-bounds panic for the values
32767..=32775 that pass the validity check but overrun the store. -/
theorem address_next_plain_increment (a : Address) (vm : VM)
    (hlen : vm.memory.length = U15_MAX) (hip : vm.instruction_pointer = a)
    (hv : a.val < 65535) :
    a.next.val = a.val + 1 ∧
    (32776 ≤ a.val →
      vm.step [] = .ok ⟨.error (.InvalidMemoryAccess a),
        { vm with instruction_pointer := a.next }, [], []⟩) ∧
    (U15_MAX ≤ a.val → a.val ≤ REGISTER_7 → vm.step [] = .panicked) := by
  subst hip
  refine ⟨?_, ?_, ?_⟩
  · show (vm.instruction_pointer.val + 1) % 65536 = vm.instruction_pointer.val + 1
    exact Nat.mod_eq_of_lt (by omega)
  · intro h
    exact VM.step_decode_error [] (VM.current_instruction_of_advance_error
      (VM.advance_error (VM.read_memory_invalid (Address.is_invalid_of_ge h))))
  · intro h1 h2
    refine VM.step_panic [] (VM.current_instruction_of_advance_panic
      (VM.advance_panic (VM.read_memory_oob (Address.is_invalid_of_le h2) ?_)))
    rw [List.get?_eq_none, hlen]
    exact h1

/-- C8 witness: a machine whose pointer sits at the invalid address
40000 gets the access error at the fetch, with the pointer already
advanced by the plain increment. -/
theorem address_next_plain_increment_witness :
    (Address.new 40000).next.val = 40001 ∧
    ({ VM.init with instruction_pointer := Address.new 40000 } : VM).step [] =
      .ok ⟨.error (.InvalidMemoryAccess (Address.new 40000)),
        { { VM.init with instruction_pointer := Address.new 40000 } with
            instruction_pointer := (Address.new 40000).next }, [], []⟩ := by
  have h := address_next_plain_increment (Address.new 40000)
    { VM.init with instruction_pointer := Address.new 40000 }
    (by simp [VM.init]) rfl (by decide)
  exact ⟨h.1, h.2.1 (by decide)⟩

/-- C3 counterexample: the register-class address 32768 is valid
(`is_valid`), so by the claim `read_memory` should return a cell there —
but it panics: the 32,767-cell store has no index 32768. -/
theorem read_memory_valid_address_panics :
    (Address.new 32768).is_valid = true ∧
    VM.init.read_memory (Address.new 32768) = Panic.panicked := by
  refine ⟨by decide, ?_⟩
  refine VM.read_memory_oob (Address.is_invalid_of_le (by decide)) ?_
  rw [List.get?_eq_none,
    show VM.init.memory = List.replicate U15_MAX 0 from rfl, List.length_replicate]
  decide

/-- C3 (amended): `read_memory` fails with `InvalidMemoryAccess` exactly
for invalid addresses (≥ 32776); it returns the stored cell only for
values below the 32,767-cell end of the store; the remaining valid
values 32767..=32775 pass the check but index out of bounds (panic). -/
theorem read_memory_trichotomy (vm : VM) (location : Address)
    (hlen : vm.memory.length = U15_MAX) :
    (REGISTER_7 < location.val →
      vm.read_memory location = .ok (.error (.InvalidMemoryAccess location))) ∧
    (location.val < U15_MAX →
      ∃ v, vm.memory.get? location.val = some v ∧
        vm.read_memory location = .ok (.ok v)) ∧
    (U15_MAX ≤ location.val → location.val ≤ REGISTER_7 →
      vm.read_memory location = Panic.panicked) := by
  have hmax : U15_MAX = 32767 := by decide
  have hr7 : REGISTER_7 = 32775 := by decide
  refine ⟨?_, ?_, ?_⟩
  · intro h
    rw [hr7] at h
    exact VM.read_memory_invalid (Address.is_invalid_of_ge (by omega))
  · intro h
    rw [hmax] at h
    cases hget : vm.memory.get? location.val with
    | none => rw [List.get?_eq_none, hlen, hmax] at hget; omega
    | some v =>
        exact ⟨v, rfl,
          VM.read_memory_some (Address.is_invalid_of_le (by omega)) hget⟩
  · intro h1 h2
    rw [hmax] at h1
    rw [hr7] at h2
    refine VM.read_memory_oob (Address.is_invalid_of_le (by omega)) ?_
    rw [List.get?_eq_none, hlen, hmax]
    exact h1

/-- C3 witness: on the freshly initialized machine, address 40000 gives
the access error, cell 5 reads back 0, and register-class address 32770
panics. -/
theorem read_memory_trichotomy_witness :
    VM.init.read_memory (Address.new 40000) =
      .ok (.error (.InvalidMemoryAccess (Address.new 40000))) ∧
    VM.init.read_memory (Address.new 32770) = Panic.panicked := by
  have h := read_memory_trichotomy VM.init (Address.new 40000) (by simp [VM.init])
  have h2 := read_memory_trichotomy VM.init (Address.new 32770) (by simp [VM.init])
  exact ⟨h.1 (by decide), h2.2.2 (by decide) (by decide)⟩

/-- C5: decoding a word sequence whose operand position holds 40000
(≥ 32776) does not return the `MalformedInstruction` error the spec (and
the crate's own `current_instruction_malformed` test, marked
`should_panic` with an XXX note) call for: `Register::new` panics first.
The input is the crate's own test input `[9, 32768, 40000]`. -/
theorem malformed_operand_decode_panics :
    Instruction.from_u16_sequence [9, 32768, 40000] = Panic.panicked ∧
    vmMalformed.current_instruction = Panic.panicked := by
  constructor
  · rfl
  · rfl

theorem Register.new_of_to_u16 (r : Register) : Register.new r.to_u16 = .ok r := by
  cases r <;> rfl

theorem Argument.new_of_arg_to_u16 {a : Argument} (h : a.legal = true) :
    Argument.new a.to_u16 = .ok a := by
  cases a with
  | Literal u =>
      have hu : u.val < MODULUS := by
        simpa [Argument.legal] using h
      unfold Argument.new
      rw [if_neg (by simp [Argument.to_u16, REGISTER_0, MODULUS] at hu ⊢; omega)]
      rfl
  | Register r =>
      unfold Argument.new
      rw [if_pos (by cases r <;> decide)]
      show (Register.new r.to_u16).map _ = _
      rw [Register.new_of_to_u16]
      rfl

theorem Argument.new_legal {w : Nat} {a : Argument} (h : Argument.new w = .ok a) :
    a.legal = true := by
  unfold Argument.new at h
  by_cases hw : REGISTER_0 ≤ w
  · rw [if_pos hw] at h
    obtain ⟨r, hr, ha⟩ := Panic.map_eq_ok h
    rw [ha]
    rfl
  · rw [if_neg hw] at h
    cases h
    simp [Argument.legal, REGISTER_0, MODULUS] at hw ⊢
    omega

set_option maxRecDepth 8192

/-- C7: the codec round-trips — decoding the encoding of any legal
instruction (every literal operand a 15-bit Word) succeeds and returns
the same instruction. -/
theorem codec_round_trip (i : Instruction) (h : i.legal = true) :
    Instruction.from_u16_sequence i.to_u16_sequence = .ok (some i) := by
  cases i with
  | HALT => rfl
  | RET => rfl
  | NOOP => rfl
  | SET r a =>
      simp only [Instruction.legal] at h
      show Panic.bind (Register.new r.to_u16) _ = _
      rw [Register.new_of_to_u16]
      show Panic.bind (Argument.new a.to_u16) _ = _
      rw [Argument.new_of_arg_to_u16 h]
      rfl
  | PUSH a =>
      simp only [Instruction.legal] at h
      show Panic.bind (Argument.new a.to_u16) _ = _
      rw [Argument.new_of_arg_to_u16 h]
      rfl
  | POP r =>
      show Panic.bind (Register.new r.to_u16) _ = _
      rw [Register.new_of_to_u16]
      rfl
  | EQ r a b =>
      simp only [Instruction.legal, Bool.and_eq_true] at h
      obtain ⟨h1, h2⟩ := h
      show Panic.bind (Register.new r.to_u16) _ = _
      rw [Register.new_of_to_u16]
      show Panic.bind (Argument.new a.to_u16) _ = _
      rw [Argument.new_of_arg_to_u16 h1]
      show Panic.bind (Argument.new b.to_u16) _ = _
      rw [Argument.new_of_arg_to_u16 h2]
      rfl
  | GT r a b =>
      simp only [Instruction.legal, Bool.and_eq_true] at h
      obtain ⟨h1, h2⟩ := h
      show Panic.bind (Register.new r.to_u16) _ = _
      rw [Register.new_of_to_u16]
      show Panic.bind (Argument.new a.to_u16) _ = _
      rw [Argument.new_of_arg_to_u16 h1]
      show Panic.bind (Argument.new b.to_u16) _ = _
      rw [Argument.new_of_arg_to_u16 h2]
      rfl
  | JMP a =>
      simp only [Instruction.legal] at h
      show Panic.bind (Argument.new a.to_u16) _ = _
      rw [Argument.new_of_arg_to_u16 h]
      rfl
  | JT a b =>
      simp only [Instruction.legal, Bool.and_eq_true] at h
      obtain ⟨h1, h2⟩ := h
      show Panic.bind (Argument.new a.to_u16) _ = _
      rw [Argument.new_of_arg_to_u16 h1]
      show Panic.bind (Argument.new b.to_u16) _ = _
      rw [Argument.new_of_arg_to_u16 h2]
      rfl
  | JF a b =>
      simp only [Instruction.legal, Bool.and_eq_true] at h
      obtain ⟨h1, h2⟩ := h
      show Panic.bind (Argument.new a.to_u16) _ = _
      rw [Argument.new_of_arg_to_u16 h1]
      show Panic.bind (Argument.new b.to_u16) _ = _
      rw [Argument.new_of_arg_to_u16 h2]
      rfl
  | ADD r a b =>
      simp only [Instruction.legal, Bool.and_eq_true] at h
      obtain ⟨h1, h2⟩ := h
      show Panic.bind (Register.new r.to_u16) _ = _
      rw [Register.new_of_to_u16]
      show Panic.bind (Argument.new a.to_u16) _ = _
      rw [Argument.new_of_arg_to_u16 h1]
      show Panic.bind (Argument.new b.to_u16) _ = _
      rw [Argument.new_of_arg_to_u16 h2]
      rfl
  | MULT r a b =>
      simp only [Instruction.legal, Bool.and_eq_true] at h
      obtain ⟨h1, h2⟩ := h
      show Panic.bind (Register.new r.to_u16) _ = _
      rw [Register.new_of_to_u16]
      show Panic.bind (Argument.new a.to_u16) _ = _
      rw [Argument.new_of_arg_to_u16 h1]
      show Panic.bind (Argument.new b.to_u16) _ = _
      rw [Argument.new_of_arg_to_u16 h2]
      rfl
  | MOD r a b =>
      simp only [Instruction.legal, Bool.and_eq_true] at h
      obtain ⟨h1, h2⟩ := h
      show Panic.bind (Register.new r.to_u16) _ = _
      rw [Register.new_of_to_u16]
      show Panic.bind (Argument.new a.to_u16) _ = _
      rw [Argument.new_of_arg_to_u16 h1]
      show Panic.bind (Argument.new b.to_u16) _ = _
      rw [Argument.new_of_arg_to_u16 h2]
      rfl
  | AND r a b =>
      simp only [Instruction.legal, Bool.and_eq_true] at h
      obtain ⟨h1, h2⟩ := h
      show Panic.bind (Register.new r.to_u16) _ = _
      rw [Register.new_of_to_u16]
      show Panic.bind (Argument.new a.to_u16) _ = _
      rw [Argument.new_of_arg_to_u16 h1]
      show Panic.bind (Argument.new b.to_u16) _ = _
      rw [Argument.new_of_arg_to_u16 h2]
      rfl
  | OR r a b =>
      simp only [Instruction.legal, Bool.and_eq_true] at h
      obtain ⟨h1, h2⟩ := h
      show Panic.bind (Register.new r.to_u16) _ = _
      rw [Register.new_of_to_u16]
      show Panic.bind (Argument.new a.to_u16) _ = _
      rw [Argument.new_of_arg_to_u16 h1]
      show Panic.bind (Argument.new b.to_u16) _ = _
      rw [Argument.new_of_arg_to_u16 h2]
      rfl
  | NOT r a =>
      simp only [Instruction.legal] at h
      show Panic.bind (Register.new r.to_u16) _ = _
      rw [Register.new_of_to_u16]
      show Panic.bind (Argument.new a.to_u16) _ = _
      rw [Argument.new_of_arg_to_u16 h]
      rfl
  | RMEM r a =>
      show Panic.bind (Register.new r.to_u16) _ = _
      rw [Register.new_of_to_u16]
      rfl
  | WMEM a arg =>
      simp only [Instruction.legal] at h
      show Panic.bind (Argument.new arg.to_u16) _ = _
      rw [Argument.new_of_arg_to_u16 h]
      rfl
  | CALL a =>
      show Instruction.from_u16_sequence [17, a.value] = _
      rfl
  | OUT a =>
      simp only [Instruction.legal] at h
      show Panic.bind (Argument.new a.to_u16) _ = _
      rw [Argument.new_of_arg_to_u16 h]
      rfl
  | IN a =>
      show Instruction.from_u16_sequence [20, a.value] = _
      rfl

/-- C7 witness at the legal instruction `ADD R0 R1 4`. -/
theorem codec_round_trip_witness :
    Instruction.from_u16_sequence
        (Instruction.to_u16_sequence (.ADD .R0 (.Register .R1) (.Literal ⟨4⟩))) =
      .ok (some (.ADD .R0 (.Register .R1) (.Literal ⟨4⟩))) :=
  codec_round_trip (.ADD .R0 (.Register .R1) (.Literal ⟨4⟩)) (by decide)

theorem Panic.map_bind {α β γ : Type} (g : β → γ) (p : Panic α) (f : α → Panic β) :
    Panic.map g (Panic.bind p f) = Panic.bind p (fun a => Panic.map g (f a)) := by
  cases p <;> rfl

theorem execute_no_input_observables (vm : VM) (i : Instruction)
    (hne : i.isInput = false) (s1 s2 : List Nat) :
    Panic.map (fun s => (s.res, s.vm, s.out)) (vm.execute_instruction i s1) =
      Panic.map (fun s => (s.res, s.vm, s.out)) (vm.execute_instruction i s2) := by
  cases i with
  | IN a => simp [Instruction.isInput] at hne
  | JT a b =>
      unfold VM.execute_instruction
      cases hc : vm.check_true a <;> simp [hc]
  | JF a b =>
      unfold VM.execute_instruction
      cases hc : vm.check_true a <;> simp [hc]
  | EQ r a b => unfold VM.execute_instruction; simp [Panic.map_bind]
  | GT r a b => unfold VM.execute_instruction; simp [Panic.map_bind]
  | MOD r a b => unfold VM.execute_instruction; simp [Panic.map_bind]
  | POP r => unfold VM.execute_instruction; simp [Panic.map_bind]
  | RET => unfold VM.execute_instruction; simp [Panic.map_bind]
  | RMEM r a => unfold VM.execute_instruction; simp [Panic.map_bind]
  | WMEM a b => unfold VM.execute_instruction; simp [Panic.map_bind]
  | CALL a => unfold VM.execute_instruction; simp [Panic.map_bind]
  | _ => rfl

theorem execute_no_input_keeps_stdin (vm : VM) (i : Instruction)
    (hne : i.isInput = false) (stdin : List Nat) (s : StepOut)
    (hs : vm.execute_instruction i stdin = .ok s) : s.stdin = stdin := by
  cases i with
  | IN a => simp [Instruction.isInput] at hne
  | JT a b =>
      simp only [VM.execute_instruction] at hs
      split at hs <;> (cases hs; rfl)
  | JF a b =>
      simp only [VM.execute_instruction] at hs
      split at hs <;> (cases hs; rfl)
  | EQ r a b =>
      unfold VM.execute_instruction at hs
      simp only [Panic.bind_eq, Panic.pure_eq] at hs
      obtain ⟨v, hv, hs⟩ := Panic.bind_eq_ok hs
      cases hs
      rfl
  | GT r a b =>
      unfold VM.execute_instruction at hs
      simp only [Panic.bind_eq, Panic.pure_eq] at hs
      obtain ⟨v, hv, hs⟩ := Panic.bind_eq_ok hs
      cases hs
      rfl
  | MOD r a b =>
      unfold VM.execute_instruction at hs
      simp only [Panic.bind_eq, Panic.pure_eq] at hs
      obtain ⟨v, hv, hs⟩ := Panic.bind_eq_ok hs
      cases hs
      rfl
  | POP r =>
      unfold VM.execute_instruction at hs
      obtain ⟨⟨res, vm'⟩, hv, hs⟩ := Panic.map_eq_ok hs
      rw [hs]
  | RET =>
      unfold VM.execute_instruction at hs
      obtain ⟨⟨res, vm'⟩, hv, hs⟩ := Panic.map_eq_ok hs
      rw [hs]
  | RMEM r a =>
      unfold VM.execute_instruction at hs
      simp only [Panic.bind_eq, Panic.pure_eq] at hs
      obtain ⟨arg, ha, hs⟩ := Panic.bind_eq_ok hs
      obtain ⟨⟨res, vm'⟩, hv, hs⟩ := Panic.bind_eq_ok hs
      cases hs
      rfl
  | WMEM a b =>
      unfold VM.execute_instruction at hs
      simp only [Panic.bind_eq, Panic.pure_eq] at hs
      obtain ⟨arg, ha, hs⟩ := Panic.bind_eq_ok hs
      obtain ⟨⟨res, vm'⟩, hv, hs⟩ := Panic.bind_eq_ok hs
      cases hs
      rfl
  | CALL a =>
      unfold VM.execute_instruction at hs
      simp only [Panic.bind_eq, Panic.pure_eq] at hs
      obtain ⟨arg, ha, hs⟩ := Panic.bind_eq_ok hs
      obtain ⟨⟨res, vm'⟩, hv, hs⟩ := Panic.bind_eq_ok hs
      cases hs
      rfl
  | HALT => cases hs; rfl
  | OUT a => cases hs; rfl
  | SET r a => cases hs; rfl
  | PUSH a => cases hs; rfl
  | JMP a => cases hs; rfl
  | ADD r a b => cases hs; rfl
  | MULT r a b => cases hs; rfl
  | AND r a b => cases hs; rfl
  | OR r a b => cases hs; rfl
  | NOT r a => cases hs; rfl
  | NOOP => cases hs; rfl

/-- C10: non-input steps are deterministic — from one machine state, two
`step` calls under different input streams produce the same result, the
same final machine state and the same output, and consume no input, as
long as the decoded instruction is not `IN`. -/
theorem step_deterministic_without_input (vm : VM) (s1 s2 : List Nat)
    (h : ∀ i vmd, vm.current_instruction = .ok (.ok i, vmd) → i.isInput = false) :
    vm.stepObservables s1 = vm.stepObservables s2 ∧
    vm.stepKeepsStdin s1 ∧ vm.stepKeepsStdin s2 := by
  unfold VM.stepObservables VM.stepKeepsStdin
  cases hci : vm.current_instruction with
  | panicked =>
      rw [VM.step_panic s1 hci, VM.step_panic s2 hci]
      refine ⟨rfl, ?_, ?_⟩ <;> intro s hs <;> cases hs
  | ok pr =>
      obtain ⟨r, vmd⟩ := pr
      cases r with
      | error e =>
          rw [VM.step_decode_error s1 hci, VM.step_decode_error s2 hci]
          refine ⟨rfl, ?_, ?_⟩ <;> intro s hs <;> (cases hs; rfl)
      | ok i =>
          have hne := h i vmd hci
          rw [VM.step_exec s1 hci, VM.step_exec s2 hci]
          refine ⟨execute_no_input_observables vmd i hne s1 s2, ?_, ?_⟩ <;> intro s hs
          · exact execute_no_input_keeps_stdin vmd i hne s1 s hs
          · exact execute_no_input_keeps_stdin vmd i hne s2 s hs

/-- C10 witness: two steps of the `NOOP` machine under distinct input
streams agree and consume nothing. -/
theorem step_deterministic_without_input_witness :
    vmNoop.stepObservables [1, 2] = vmNoop.stepObservables [3] ∧
    vmNoop.stepKeepsStdin [1, 2] ∧ vmNoop.stepKeepsStdin [3] := by
  refine step_deterministic_without_input vmNoop [1, 2] [3] ?_
  intro i vmd hd
  have hd2 : vmNoop.current_instruction =
      .ok (.ok Instruction.NOOP,
        { vmNoop with instruction_pointer := Address.new 1 }) := by rfl
  rw [hd2] at hd
  cases hd
  rfl

theorem Address.next_val_lt (a : Address) : a.next.val < U16_MOD :=
  Nat.mod_lt _ (by decide)

theorem VM.advance_eq_ok {vm vm1 : VM} {r : Except VMError Nat}
    (h : vm.advance = .ok (r, vm1)) :
    vm1 = { vm with instruction_pointer := vm.instruction_pointer.next } ∧
    vm.read_memory vm.instruction_pointer = .ok r := by
  unfold VM.advance at h
  obtain ⟨ret, hret, heq⟩ := Panic.map_eq_ok h
  injection heq with h1 h2
  exact ⟨h2.symm ▸ rfl, h1 ▸ hret⟩

theorem VM.read_args_fields :
    ∀ (n : Nat) (vm : VM) (acc : List Nat) {r : Except VMError (List Nat)} {vm' : VM},
    VM.read_args n vm acc = .ok (r, vm') →
    vm'.stack = vm.stack ∧ vm'.memory = vm.memory ∧ vm'.registers = vm.registers ∧
    vm'.current_state = vm.current_state ∧
    (vm' = vm ∨ vm'.instruction_pointer.val < U16_MOD)
  | 0, vm, acc, r, vm', h => by
      unfold VM.read_args at h
      cases h
      exact ⟨rfl, rfl, rfl, rfl, Or.inl rfl⟩
  | n + 1, vm, acc, r, vm', h => by
      unfold VM.read_args at h
      simp only [Panic.bind_eq] at h
      obtain ⟨⟨r1, vm1⟩, h1, h⟩ := Panic.bind_eq_ok h
      obtain ⟨hvm1, _⟩ := VM.advance_eq_ok h1
      subst hvm1
      cases r1 with
      | error e =>
          dsimp only at h
          cases h
          exact ⟨rfl, rfl, rfl, rfl, Or.inr (Address.next_val_lt _)⟩
      | ok w =>
          dsimp only at h
          obtain ⟨hst, hmem, hreg, hcs, hip⟩ :=
            VM.read_args_fields n _ (acc ++ [w]) h
          refine ⟨hst, hmem, hreg, hcs, Or.inr ?_⟩
          cases hip with
          | inl hv => rw [hv]; exact Address.next_val_lt _
          | inr hv => exact hv

theorem VM.current_instruction_fields {vm vm' : VM} {r : Except VMError Instruction}
    (h : vm.current_instruction = .ok (r, vm')) :
    vm'.stack = vm.stack ∧ vm'.memory = vm.memory ∧ vm'.registers = vm.registers ∧
    vm'.current_state = vm.current_state ∧ vm'.instruction_pointer.val < U16_MOD := by
  unfold VM.current_instruction at h
  simp only [Panic.bind_eq] at h
  obtain ⟨⟨r1, vm1⟩, h1, h⟩ := Panic.bind_eq_ok h
  obtain ⟨hvm1, _⟩ := VM.advance_eq_ok h1
  subst hvm1
  cases r1 with
  | error e =>
      dsimp only at h
      cases h
      exact ⟨rfl, rfl, rfl, rfl, Address.next_val_lt _⟩
  | ok opcode =>
      dsimp only at h
      cases harg : Instruction.arg_count opcode with
      | none =>
          rw [harg] at h
          cases h
          exact ⟨rfl, rfl, rfl, rfl, Address.next_val_lt _⟩
      | some n =>
          rw [harg] at h
          obtain ⟨⟨rs, vm2⟩, h2, h⟩ := Panic.bind_eq_ok h
          dsimp only at h
          obtain ⟨hst, hmem, hreg, hcs, hip⟩ := VM.read_args_fields n _ [opcode] h2
          have hip2 : vm2.instruction_pointer.val < U16_MOD := by
            cases hip with
            | inl hv => rw [hv]; exact Address.next_val_lt _
            | inr hv => exact hv
          cases rs with
          | error e =>
              dsimp only at h
              cases h
              exact ⟨hst, hmem, hreg, hcs, hip2⟩
          | ok seq =>
              dsimp only at h
              obtain ⟨o, ho, h⟩ := Panic.bind_eq_ok h
              cases o with
              | some i =>
                  dsimp only at h
                  cases h
                  exact ⟨hst, hmem, hreg, hcs, hip2⟩
              | none =>
                  dsimp only at h
                  cases h
                  exact ⟨hst, hmem, hreg, hcs, hip2⟩

theorem VM.jump_error {vm vm' : VM} {arg : Argument} {e : VMError}
    (h : vm.jump arg = (.error e, vm')) : vm' = vm := by
  unfold VM.jump at h
  dsimp only at h
  split at h
  · injection h with h1 h2
    cases h1
  · split at h
    · injection h with h1 h2
      exact h2.symm
    · injection h with h1 h2
      exact h2.symm

/-- The per-instruction state relation when execution returns an error:
registers and memory are untouched, the pointer and run state are
untouched, nothing is read or written on the streams — and the stack is
untouched except for `CALL` (which already pushed the return pointer)
and `RET` (which already popped it). -/
theorem execute_error_fields (vm : VM) (i : Instruction) (stdin : List Nat)
    (s : StepOut) (e : VMError)
    (hs : vm.execute_instruction i stdin = .ok s) (hres : s.res = .error e) :
    s.vm.registers = vm.registers ∧ s.vm.memory = vm.memory ∧
    s.vm.instruction_pointer = vm.instruction_pointer ∧
    s.vm.current_state = vm.current_state ∧ s.stdin = stdin ∧ s.out = [] ∧
    stackEffect i vm.stack s.vm.stack := by
  cases i with
  | HALT => cases hs; simp at hres
  | NOOP => cases hs; simp at hres
  | SET r a => cases hs; simp [VM.write_register] at hres
  | PUSH a => cases hs; simp at hres
  | ADD r a b => cases hs; simp [VM.write_register] at hres
  | MULT r a b => cases hs; simp [VM.write_register] at hres
  | AND r a b => cases hs; simp [VM.write_register] at hres
  | OR r a b => cases hs; simp [VM.write_register] at hres
  | NOT r a => cases hs; simp [VM.write_register] at hres
  | EQ r a b =>
      simp only [VM.execute_instruction, Panic.bind_eq, Panic.pure_eq] at hs
      obtain ⟨v, hv, hs⟩ := Panic.bind_eq_ok hs
      cases hs
      simp [VM.write_register] at hres
  | GT r a b =>
      simp only [VM.execute_instruction, Panic.bind_eq, Panic.pure_eq] at hs
      obtain ⟨v, hv, hs⟩ := Panic.bind_eq_ok hs
      cases hs
      simp [VM.write_register] at hres
  | MOD r a b =>
      simp only [VM.execute_instruction, Panic.bind_eq, Panic.pure_eq] at hs
      obtain ⟨m, hm, hs⟩ := Panic.bind_eq_ok hs
      cases hs
      simp [VM.write_register] at hres
  | JMP a =>
      simp only [VM.execute_instruction] at hs
      rcases hj : vm.jump a with ⟨res, vm2⟩
      rw [hj] at hs
      dsimp only at hs
      cases hs
      dsimp only at hres
      subst hres
      have hv := VM.jump_error hj
      subst hv
      exact ⟨rfl, rfl, rfl, rfl, rfl, rfl, rfl⟩
  | JT a b =>
      simp only [VM.execute_instruction] at hs
      split at hs
      · rcases hj : vm.jump b with ⟨res, vm2⟩
        rw [hj] at hs
        dsimp only at hs
        cases hs
        dsimp only at hres
        subst hres
        have hv := VM.jump_error hj
        subst hv
        exact ⟨rfl, rfl, rfl, rfl, rfl, rfl, rfl⟩
      · cases hs; simp at hres
  | JF a b =>
      simp only [VM.execute_instruction] at hs
      split at hs
      · rcases hj : vm.jump b with ⟨res, vm2⟩
        rw [hj] at hs
        dsimp only at hs
        cases hs
        dsimp only at hres
        subst hres
        have hv := VM.jump_error hj
        subst hv
        exact ⟨rfl, rfl, rfl, rfl, rfl, rfl, rfl⟩
      · cases hs; simp at hres
  | POP r =>
      simp only [VM.execute_instruction] at hs
      obtain ⟨⟨res, vm'⟩, hp, hseq⟩ := Panic.map_eq_ok hs
      subst hseq
      unfold VM.pop at hp
      cases hstk : vm.stack with
      | nil =>
          rw [hstk] at hp
          cases hp
          simp at hres
          exact ⟨rfl, rfl, rfl, rfl, rfl, rfl, hstk.symm ▸ rfl⟩
      | cons v rest =>
          rw [hstk] at hp
          obtain ⟨arg, ha, hp⟩ := Panic.map_eq_ok hp
          rw [hp] at hres
          simp [VM.write_register] at hres
  | RMEM r a =>
      simp only [VM.execute_instruction, Panic.bind_eq, Panic.pure_eq] at hs
      obtain ⟨arg, ha, hs⟩ := Panic.bind_eq_ok hs
      obtain ⟨⟨res, vm'⟩, hp, hs⟩ := Panic.bind_eq_ok hs
      cases hs
      unfold VM.rmem at hp
      obtain ⟨res2, hrm, hp⟩ := Panic.map_eq_ok hp
      cases res2 with
      | ok mem =>
          rw [hp] at hres
          simp [VM.write_register] at hres
      | error e2 =>
          dsimp only at hp
          injection hp with hp1 hp2
          subst hp2
          exact ⟨rfl, rfl, rfl, rfl, rfl, rfl, rfl⟩
  | WMEM a b =>
      simp only [VM.execute_instruction, Panic.bind_eq, Panic.pure_eq] at hs
      obtain ⟨arg, ha, hs⟩ := Panic.bind_eq_ok hs
      obtain ⟨⟨res, vm'⟩, hp, hs⟩ := Panic.bind_eq_ok hs
      cases hs
      unfold VM.wmem at hp
      obtain ⟨vm2, hwm, hp⟩ := Panic.map_eq_ok hp
      rw [hp] at hres
      simp at hres
  | CALL a =>
      simp only [VM.execute_instruction, Panic.bind_eq, Panic.pure_eq] at hs
      obtain ⟨arg, ha, hs⟩ := Panic.bind_eq_ok hs
      obtain ⟨⟨res, vm'⟩, hp, hs⟩ := Panic.bind_eq_ok hs
      cases hs
      unfold VM.call at hp
      obtain ⟨arg2, ha2, hp⟩ := Panic.map_eq_ok hp
      dsimp only at hres
      subst hres
      have hv := VM.jump_error hp.symm
      subst hv
      exact ⟨rfl, rfl, rfl, rfl, rfl, rfl, vm.parse_argument arg2, rfl⟩
  | RET =>
      simp only [VM.execute_instruction] at hs
      obtain ⟨⟨res, vm'⟩, hp, hseq⟩ := Panic.map_eq_ok hs
      subst hseq
      unfold VM.ret at hp
      cases hstk : vm.stack with
      | nil =>
          rw [hstk] at hp
          cases hp
          simp at hres
      | cons v rest =>
          rw [hstk] at hp
          obtain ⟨arg2, ha2, hp⟩ := Panic.map_eq_ok hp
          dsimp only at hres
          subst hres
          have hv := VM.jump_error hp.symm
          subst hv
          exact ⟨rfl, rfl, rfl, rfl, rfl, rfl, v, rfl⟩
  | OUT a =>
      simp only [VM.execute_instruction] at hs
      rcases ho : vm.write_output a with ⟨res, out⟩
      rw [ho] at hs
      dsimp only at hs
      cases hs
      dsimp only at hres
      subst hres
      unfold VM.write_output at ho
      dsimp only at ho
      split at ho
      · injection ho with h1 h2
        subst h2
        exact ⟨rfl, rfl, rfl, rfl, rfl, rfl, rfl⟩
      · injection ho with h1 h2
        cases h1
  | IN a =>
      simp only [VM.execute_instruction, Panic.bind_eq, Panic.pure_eq] at hs
      obtain ⟨arg, ha, hs⟩ := Panic.bind_eq_ok hs
      obtain ⟨⟨res, vm', stdin'⟩, hp, hs⟩ := Panic.bind_eq_ok hs
      cases hs
      unfold VM.read_input at hp
      cases arg with
      | Literal u =>
          obtain ⟨vm2, hwm, hp⟩ := Panic.map_eq_ok hp
          rw [hp] at hres
          simp at hres
      | Register r =>
          obtain ⟨arg2, ha2, hp⟩ := Panic.map_eq_ok hp
          rw [hp] at hres
          simp [VM.write_register] at hres

/-- C2 counterexample: on the machine `vmCallErr` the decoded `CALL R0`
errors with `JumpOutOfBounds` (register 0 holds 40000), yet the stack
after `step` is `[2]` — the pushed return pointer — not the pre-step
empty stack.  Error atomicity does not hold for `CALL`. -/
theorem call_error_mutates_stack :
    Panic.map (fun s => (s.res, s.vm.stack)) (vmCallErr.step []) =
      .ok (.error (.JumpOutOfBounds (Address.new 40000)), [2]) ∧
    vmCallErr.stack = [] := by
  constructor
  · rfl
  · rfl

/-- C2 (amended): when a decoded instruction's execution returns an
error, `step` leaves registers, memory and run state at their pre-step
values, retains only the decode's pointer advance, touches neither
stream — and leaves the stack unchanged except for `CALL`, which retains
the return-pointer push made before its failing jump, and `RET`, which
retains its pop. -/
theorem step_error_atomicity (vm vmd : VM) (stdin : List Nat) (i : Instruction)
    (s : StepOut) (e : VMError)
    (hdec : vm.current_instruction = .ok (.ok i, vmd))
    (hstep : vm.step stdin = .ok s) (hres : s.res = .error e) :
    s.vm.registers = vm.registers ∧ s.vm.memory = vm.memory ∧
    s.vm.instruction_pointer = vmd.instruction_pointer ∧
    s.vm.current_state = vm.current_state ∧ s.stdin = stdin ∧ s.out = [] ∧
    stackEffect i vm.stack s.vm.stack := by
  rw [VM.step_exec stdin hdec] at hstep
  obtain ⟨hst, hmem, hreg, hcs, _⟩ := VM.current_instruction_fields hdec
  obtain ⟨er, em, eip, ecs, estdin, eout, estack⟩ :=
    execute_error_fields vmd i stdin s e hstep hres
  refine ⟨er.trans hreg, em.trans hmem, eip, ecs.trans hcs, estdin, eout, ?_⟩
  rw [← hst]
  exact estack

/-- C2 witness: `POP R0` on an empty stack errors with `StackUnderflow`
and leaves registers, memory, stack and streams untouched, with the
pointer advanced past the decoded instruction. -/
theorem step_error_atomicity_witness :
    ∃ s : StepOut, vmPopEmpty.step [] = .ok s ∧
      (s.vm.registers = vmPopEmpty.registers ∧ s.vm.memory = vmPopEmpty.memory ∧
       s.vm.instruction_pointer =
         ({ vmPopEmpty with instruction_pointer := Address.new 2 } : VM).instruction_pointer ∧
       s.vm.current_state = vmPopEmpty.current_state ∧ s.stdin = ([] : List Nat) ∧
       s.out = ([] : List Nat) ∧ s.vm.stack = vmPopEmpty.stack) := by
  have hdec : vmPopEmpty.current_instruction =
      .ok (.ok (Instruction.POP .R0),
        { vmPopEmpty with instruction_pointer := Address.new 2 }) := by rfl
  have hstep : vmPopEmpty.step [] =
      .ok ⟨.error .StackUnderflow,
        { vmPopEmpty with instruction_pointer := Address.new 2 }, [], []⟩ := by rfl
  refine ⟨_, hstep, ?_⟩
  have h := step_error_atomicity vmPopEmpty
    { vmPopEmpty with instruction_pointer := Address.new 2 } [] (Instruction.POP .R0)
    ⟨.error .StackUnderflow,
      { vmPopEmpty with instruction_pointer := Address.new 2 }, [], []⟩
    .StackUnderflow hdec hstep rfl
  exact ⟨h.1, h.2.1, h.2.2.1, h.2.2.2.1, h.2.2.2.2.1, h.2.2.2.2.2.1, h.2.2.2.2.2.2⟩

theorem VM.read_register_lt {vm : VM} (hreg : ∀ x ∈ vm.registers, x < U16_MOD)
    (r : Register) : vm.read_register r < U16_MOD := by
  unfold VM.read_register
  cases hg : vm.registers.get? r.as_index with
  | none => simp [hg]; decide
  | some x =>
      simp only [hg, Option.getD_some]
      exact hreg x (List.get?_mem hg)

theorem parse_lt_of_new {vm : VM} {w : Nat} {a : Argument}
    (hreg : ∀ x ∈ vm.registers, x < U16_MOD) (h : Argument.new w = .ok a) :
    vm.parse_argument a < U16_MOD := by
  unfold Argument.new at h
  by_cases hw : REGISTER_0 ≤ w
  · rw [if_pos hw] at h
    obtain ⟨r, hr, ha⟩ := Panic.map_eq_ok h
    rw [ha]
    exact VM.read_register_lt hreg r
  · rw [if_neg hw] at h
    cases h
    show w < U16_MOD
    simp only [REGISTER_0] at hw
    simp only [U16_MOD]
    omega

theorem parse_lt_of_legal {vm : VM} {a : Argument}
    (hreg : ∀ x ∈ vm.registers, x < U16_MOD) (h : a.legal = true) :
    vm.parse_argument a < U16_MOD := by
  cases a with
  | Literal u =>
      have hu : u.val < MODULUS := by simpa [Argument.legal] using h
      have h2 : MODULUS < U16_MOD := by decide
      show u.val < U16_MOD
      omega
  | Register r => exact VM.read_register_lt hreg r

theorem good_of_fields {vm vm' : VM} (hg : GoodVM vm)
    (hst : vm'.stack = vm.stack) (hmem : vm'.memory = vm.memory)
    (hreg : vm'.registers = vm.registers)
    (hip : vm'.instruction_pointer.val < U16_MOD) : GoodVM vm' := by
  obtain ⟨_, h2, h3, h4, h5, h6⟩ := hg
  exact ⟨hip, hmem ▸ h2, hreg ▸ h3, hmem ▸ h4, hreg ▸ h5, hst ▸ h6⟩

theorem good_stack_tail {vm : VM} (hg : GoodVM vm) {v : Nat} {rest : List Nat}
    (hstk : vm.stack = v :: rest) : GoodVM { vm with stack := rest } := by
  obtain ⟨h1, h2, h3, h4, h5, h6⟩ := hg
  refine ⟨h1, h2, h3, h4, h5, ?_⟩
  intro x hx
  exact h6 x (by rw [hstk]; exact List.mem_cons_of_mem v hx)

theorem good_write_register {vm : VM} (hg : GoodVM vm) {r : Register} {a : Argument}
    (hparse : vm.parse_argument a < U16_MOD) :
    GoodVM (vm.write_register r a).2 := by
  obtain ⟨h1, h2, h3, h4, h5, h6⟩ := hg
  refine ⟨h1, h2, ?_, h4, ?_, h6⟩
  · show (vm.registers.set r.as_index (vm.parse_argument a)).length = 8
    rw [List.length_set]
    exact h3
  · intro x hx
    rcases List.mem_or_eq_of_mem_set hx with hmem | hv
    · exact h5 x hmem
    · rw [hv]; exact hparse

theorem good_write_memory {vm vm' : VM} (hg : GoodVM vm) {addr : Address} {v : Nat}
    (hv : v < U16_MOD) (h : vm.write_memory addr v = .ok vm') : GoodVM vm' := by
  unfold VM.write_memory at h
  split at h
  · cases h
    obtain ⟨h1, h2, h3, h4, h5, h6⟩ := hg
    refine ⟨h1, ?_, h3, ?_, h5, h6⟩
    · show (vm.memory.set addr.value v).length = U15_MAX
      rw [List.length_set]
      exact h2
    · intro x hx
      rcases List.mem_or_eq_of_mem_set hx with hmem | hveq
      · exact h4 x hmem
      · rw [hveq]; exact hv
  · cases h

theorem good_push {vm : VM} (hg : GoodVM vm) {arg : Argument}
    (hparse : vm.parse_argument arg < U16_MOD) : GoodVM (vm.push arg) := by
  obtain ⟨h1, h2, h3, h4, h5, h6⟩ := hg
  refine ⟨h1, h2, h3, h4, h5, ?_⟩
  intro x hx
  rcases List.mem_cons.mp hx with hv | hmem
  · rw [hv]; exact hparse
  · exact h6 x hmem

theorem good_jump {vm vm' : VM} (hg : GoodVM vm) {arg : Argument} {res : VMResult}
    (h : vm.jump arg = (res, vm')) : GoodVM vm' := by
  unfold VM.jump at h
  dsimp only at h
  split at h
  · rename_i hmem
    injection h with h1 h2
    subst h2
    refine good_of_fields hg rfl rfl rfl ?_
    show (Address.new (vm.parse_argument arg)).val < U16_MOD
    simp only [Address.is_memory, Address.is_valid, Address.is_register, Bool.and_eq_true,
      decide_eq_true_eq, REGISTER_7, U16_MOD] at hmem ⊢
    omega
  · split at h <;> (injection h with h1 h2; subst h2; exact hg)

theorem read_memory_ok_lt {vm : VM} {loc : Address} {v : Nat}
    (hmem : ∀ x ∈ vm.memory, x < U16_MOD)
    (h : vm.read_memory loc = .ok (.ok v)) : v < U16_MOD := by
  unfold VM.read_memory at h
  split at h
  · cases h
  · cases hg : vm.memory.get? loc.to_usize with
    | none => rw [hg] at h; cases h
    | some w =>
        rw [hg] at h
        cases h
        exact hmem v (List.get?_mem hg)

theorem from_u16_legal {seq : List Nat} {i : Instruction}
    (h : Instruction.from_u16_sequence seq = .ok (some i)) : i.legal = true := by
  unfold Instruction.from_u16_sequence at h
  simp only [Panic.bind_eq, Panic.pure_eq] at h
  obtain ⟨opcode, hop, h⟩ := Panic.bind_eq_ok h
  split at h
  · cases h
    rfl
  · obtain ⟨w1, hw1, h⟩ := Panic.bind_eq_ok h
    obtain ⟨r, hr, h⟩ := Panic.bind_eq_ok h
    obtain ⟨w2, hw2, h⟩ := Panic.bind_eq_ok h
    obtain ⟨a, ha, h⟩ := Panic.bind_eq_ok h
    cases h
    exact Argument.new_legal ha
  · obtain ⟨w1, hw1, h⟩ := Panic.bind_eq_ok h
    obtain ⟨a, ha, h⟩ := Panic.bind_eq_ok h
    cases h
    exact Argument.new_legal ha
  · obtain ⟨w1, hw1, h⟩ := Panic.bind_eq_ok h
    obtain ⟨r, hr, h⟩ := Panic.bind_eq_ok h
    cases h
    rfl
  · obtain ⟨w1, hw1, h⟩ := Panic.bind_eq_ok h
    obtain ⟨r, hr, h⟩ := Panic.bind_eq_ok h
    obtain ⟨w2, hw2, h⟩ := Panic.bind_eq_ok h
    obtain ⟨a, ha, h⟩ := Panic.bind_eq_ok h
    obtain ⟨w3, hw3, h⟩ := Panic.bind_eq_ok h
    obtain ⟨b, hb, h⟩ := Panic.bind_eq_ok h
    cases h
    simp [Instruction.legal, Argument.new_legal ha, Argument.new_legal hb]
  · obtain ⟨w1, hw1, h⟩ := Panic.bind_eq_ok h
    obtain ⟨r, hr, h⟩ := Panic.bind_eq_ok h
    obtain ⟨w2, hw2, h⟩ := Panic.bind_eq_ok h
    obtain ⟨a, ha, h⟩ := Panic.bind_eq_ok h
    obtain ⟨w3, hw3, h⟩ := Panic.bind_eq_ok h
    obtain ⟨b, hb, h⟩ := Panic.bind_eq_ok h
    cases h
    simp [Instruction.legal, Argument.new_legal ha, Argument.new_legal hb]
  · obtain ⟨w1, hw1, h⟩ := Panic.bind_eq_ok h
    obtain ⟨a, ha, h⟩ := Panic.bind_eq_ok h
    cases h
    exact Argument.new_legal ha
  · obtain ⟨w1, hw1, h⟩ := Panic.bind_eq_ok h
    obtain ⟨a, ha, h⟩ := Panic.bind_eq_ok h
    obtain ⟨w2, hw2, h⟩ := Panic.bind_eq_ok h
    obtain ⟨b, hb, h⟩ := Panic.bind_eq_ok h
    cases h
    simp [Instruction.legal, Argument.new_legal ha, Argument.new_legal hb]
  · obtain ⟨w1, hw1, h⟩ := Panic.bind_eq_ok h
    obtain ⟨a, ha, h⟩ := Panic.bind_eq_ok h
    obtain ⟨w2, hw2, h⟩ := Panic.bind_eq_ok h
    obtain ⟨b, hb, h⟩ := Panic.bind_eq_ok h
    cases h
    simp [Instruction.legal, Argument.new_legal ha, Argument.new_legal hb]
  · obtain ⟨w1, hw1, h⟩ := Panic.bind_eq_ok h
    obtain ⟨r, hr, h⟩ := Panic.bind_eq_ok h
    obtain ⟨w2, hw2, h⟩ := Panic.bind_eq_ok h
    obtain ⟨a, ha, h⟩ := Panic.bind_eq_ok h
    obtain ⟨w3, hw3, h⟩ := Panic.bind_eq_ok h
    obtain ⟨b, hb, h⟩ := Panic.bind_eq_ok h
    cases h
    simp [Instruction.legal, Argument.new_legal ha, Argument.new_legal hb]
  · obtain ⟨w1, hw1, h⟩ := Panic.bind_eq_ok h
    obtain ⟨r, hr, h⟩ := Panic.bind_eq_ok h
    obtain ⟨w2, hw2, h⟩ := Panic.bind_eq_ok h
    obtain ⟨a, ha, h⟩ := Panic.bind_eq_ok h
    obtain ⟨w3, hw3, h⟩ := Panic.bind_eq_ok h
    obtain ⟨b, hb, h⟩ := Panic.bind_eq_ok h
    cases h
    simp [Instruction.legal, Argument.new_legal ha, Argument.new_legal hb]
  · obtain ⟨w1, hw1, h⟩ := Panic.bind_eq_ok h
    obtain ⟨r, hr, h⟩ := Panic.bind_eq_ok h
    obtain ⟨w2, hw2, h⟩ := Panic.bind_eq_ok h
    obtain ⟨a, ha, h⟩ := Panic.bind_eq_ok h
    obtain ⟨w3, hw3, h⟩ := Panic.bind_eq_ok h
    obtain ⟨b, hb, h⟩ := Panic.bind_eq_ok h
    cases h
    simp [Instruction.legal, Argument.new_legal ha, Argument.new_legal hb]
  · obtain ⟨w1, hw1, h⟩ := Panic.bind_eq_ok h
    obtain ⟨r, hr, h⟩ := Panic.bind_eq_ok h
    obtain ⟨w2, hw2, h⟩ := Panic.bind_eq_ok h
    obtain ⟨a, ha, h⟩ := Panic.bind_eq_ok h
    obtain ⟨w3, hw3, h⟩ := Panic.bind_eq_ok h
    obtain ⟨b, hb, h⟩ := Panic.bind_eq_ok h
    cases h
    simp [Instruction.legal, Argument.new_legal ha, Argument.new_legal hb]
  · obtain ⟨w1, hw1, h⟩ := Panic.bind_eq_ok h
    obtain ⟨r, hr, h⟩ := Panic.bind_eq_ok h
    obtain ⟨w2, hw2, h⟩ := Panic.bind_eq_ok h
    obtain ⟨a, ha, h⟩ := Panic.bind_eq_ok h
    obtain ⟨w3, hw3, h⟩ := Panic.bind_eq_ok h
    obtain ⟨b, hb, h⟩ := Panic.bind_eq_ok h
    cases h
    simp [Instruction.legal, Argument.new_legal ha, Argument.new_legal hb]
  · obtain ⟨w1, hw1, h⟩ := Panic.bind_eq_ok h
    obtain ⟨r, hr, h⟩ := Panic.bind_eq_ok h
    obtain ⟨w2, hw2, h⟩ := Panic.bind_eq_ok h
    obtain ⟨a, ha, h⟩ := Panic.bind_eq_ok h
    cases h
    exact Argument.new_legal ha
  · obtain ⟨w1, hw1, h⟩ := Panic.bind_eq_ok h
    obtain ⟨r, hr, h⟩ := Panic.bind_eq_ok h
    obtain ⟨w2, hw2, h⟩ := Panic.bind_eq_ok h
    cases h
    rfl
  · obtain ⟨w1, hw1, h⟩ := Panic.bind_eq_ok h
    obtain ⟨w2, hw2, h⟩ := Panic.bind_eq_ok h
    obtain ⟨a, ha, h⟩ := Panic.bind_eq_ok h
    cases h
    exact Argument.new_legal ha
  · obtain ⟨w1, hw1, h⟩ := Panic.bind_eq_ok h
    cases h
    rfl
  · cases h
    rfl
  · obtain ⟨w1, hw1, h⟩ := Panic.bind_eq_ok h
    obtain ⟨a, ha, h⟩ := Panic.bind_eq_ok h
    cases h
    exact Argument.new_legal ha
  · obtain ⟨w1, hw1, h⟩ := Panic.bind_eq_ok h
    cases h
    rfl
  · cases h
    rfl
  · simp at h

theorem current_instruction_legal {vm vm' : VM} {i : Instruction}
    (h : vm.current_instruction = .ok (.ok i, vm')) : i.legal = true := by
  unfold VM.current_instruction at h
  simp only [Panic.bind_eq] at h
  obtain ⟨⟨r1, vm1⟩, h1, h⟩ := Panic.bind_eq_ok h
  cases r1 with
  | error e => dsimp only at h; cases h
  | ok opcode =>
      dsimp only at h
      cases harg : Instruction.arg_count opcode with
      | none => rw [harg] at h; cases h
      | some n =>
          rw [harg] at h
          obtain ⟨⟨rs, vm2⟩, h2, h⟩ := Panic.bind_eq_ok h
          dsimp only at h
          cases rs with
          | error e => dsimp only at h; cases h
          | ok seq =>
              dsimp only at h
              obtain ⟨o, ho, h⟩ := Panic.bind_eq_ok h
              cases o with
              | some j =>
                  dsimp only at h
                  cases h
                  exact from_u16_legal ho
              | none => dsimp only at h; cases h

theorem GoodVM.regs_lt {vm : VM} (h : GoodVM vm) : ∀ x ∈ vm.registers, x < U16_MOD :=
  h.2.2.2.2.1

theorem GoodVM.mem_lt {vm : VM} (h : GoodVM vm) : ∀ x ∈ vm.memory, x < U16_MOD :=
  h.2.2.2.1

theorem good_set_state {vm : VM} (hg : GoodVM vm) {st : VMState} :
    GoodVM { vm with current_state := st } := by
  obtain ⟨h1, h2, h3, h4, h5, h6⟩ := hg
  exact ⟨h1, h2, h3, h4, h5, h6⟩

theorem mod_MODULUS_lt (x : Nat) : x % MODULUS < U16_MOD :=
  lt_trans (Nat.mod_lt x (by decide)) (by decide)

theorem byte_lt (x : Nat) : x % 256 < U16_MOD :=
  lt_trans (Nat.mod_lt x (by decide)) (by decide)

/-- Executing any decoded (hence legal) instruction from a well-formed
state leaves the state well-formed: every value written to a register,
memory cell or the stack is again a 16-bit value. -/
theorem execute_ok_good (vm : VM) (i : Instruction) (stdin : List Nat) (s : StepOut)
    (hg : GoodVM vm) (hl : i.legal = true)
    (hs : vm.execute_instruction i stdin = .ok s) : GoodVM s.vm := by
  cases i with
  | HALT => cases hs; exact hg
  | NOOP => cases hs; exact hg
  | SET r a =>
      cases hs
      exact good_write_register hg (parse_lt_of_legal hg.regs_lt hl)
  | PUSH a =>
      cases hs
      exact good_push hg (parse_lt_of_legal hg.regs_lt hl)
  | POP r =>
      simp only [VM.execute_instruction] at hs
      obtain ⟨⟨res, vm'⟩, hp, hseq⟩ := Panic.map_eq_ok hs
      subst hseq
      unfold VM.pop at hp
      cases hstk : vm.stack with
      | nil =>
          rw [hstk] at hp
          cases hp
          exact hg
      | cons v rest =>
          rw [hstk] at hp
          obtain ⟨arg, ha, hp⟩ := Panic.map_eq_ok hp
          rw [hp]
          exact good_write_register (good_stack_tail hg hstk)
            (parse_lt_of_new (good_stack_tail hg hstk).regs_lt ha)
  | EQ r a b =>
      simp only [VM.execute_instruction, Panic.bind_eq, Panic.pure_eq] at hs
      obtain ⟨v, hv, hs⟩ := Panic.bind_eq_ok hs
      cases hs
      exact good_write_register hg (parse_lt_of_new hg.regs_lt hv)
  | GT r a b =>
      simp only [VM.execute_instruction, Panic.bind_eq, Panic.pure_eq] at hs
      obtain ⟨v, hv, hs⟩ := Panic.bind_eq_ok hs
      cases hs
      exact good_write_register hg (parse_lt_of_new hg.regs_lt hv)
  | ADD r a b =>
      cases hs
      exact good_write_register hg (mod_MODULUS_lt _)
  | MULT r a b =>
      cases hs
      exact good_write_register hg (mod_MODULUS_lt _)
  | AND r a b =>
      cases hs
      exact good_write_register hg (mod_MODULUS_lt _)
  | OR r a b =>
      cases hs
      exact good_write_register hg (mod_MODULUS_lt _)
  | NOT r a =>
      cases hs
      exact good_write_register hg (mod_MODULUS_lt _)
  | MOD r a b =>
      simp only [VM.execute_instruction, Panic.bind_eq, Panic.pure_eq] at hs
      obtain ⟨m, hm, hs⟩ := Panic.bind_eq_ok hs
      cases hs
      unfold u15.rem at hm
      split at hm
      · cases hm
      · cases hm
        exact good_write_register hg (mod_MODULUS_lt _)
  | JMP a =>
      simp only [VM.execute_instruction] at hs
      rcases hj : vm.jump a with ⟨res, vm2⟩
      rw [hj] at hs
      dsimp only at hs
      cases hs
      exact good_jump hg hj
  | JT a b =>
      simp only [VM.execute_instruction] at hs
      split at hs
      · rcases hj : vm.jump b with ⟨res, vm2⟩
        rw [hj] at hs
        dsimp only at hs
        cases hs
        exact good_jump hg hj
      · cases hs; exact hg
  | JF a b =>
      simp only [VM.execute_instruction] at hs
      split at hs
      · rcases hj : vm.jump b with ⟨res, vm2⟩
        rw [hj] at hs
        dsimp only at hs
        cases hs
        exact good_jump hg hj
      · cases hs; exact hg
  | RMEM r a =>
      simp only [VM.execute_instruction, Panic.bind_eq, Panic.pure_eq] at hs
      obtain ⟨arg, ha, hs⟩ := Panic.bind_eq_ok hs
      obtain ⟨⟨res, vm'⟩, hp, hs⟩ := Panic.bind_eq_ok hs
      cases hs
      unfold VM.rmem at hp
      obtain ⟨res2, hrm, hp⟩ := Panic.map_eq_ok hp
      cases res2 with
      | ok mem =>
          dsimp only at hp
          rw [hp]
          exact good_write_register hg (read_memory_ok_lt hg.mem_lt hrm)
      | error e2 =>
          dsimp only at hp
          injection hp with hp1 hp2
          subst hp2
          exact hg
  | WMEM a b =>
      simp only [VM.execute_instruction, Panic.bind_eq, Panic.pure_eq] at hs
      obtain ⟨arg, ha, hs⟩ := Panic.bind_eq_ok hs
      obtain ⟨⟨res, vm'⟩, hp, hs⟩ := Panic.bind_eq_ok hs
      cases hs
      unfold VM.wmem at hp
      obtain ⟨vm2, hwm, hp⟩ := Panic.map_eq_ok hp
      injection hp with hp1 hp2
      subst hp2
      exact good_write_memory hg (parse_lt_of_legal hg.regs_lt hl) hwm
  | CALL a =>
      simp only [VM.execute_instruction, Panic.bind_eq, Panic.pure_eq] at hs
      obtain ⟨arg, ha, hs⟩ := Panic.bind_eq_ok hs
      obtain ⟨⟨res, vm'⟩, hp, hs⟩ := Panic.bind_eq_ok hs
      cases hs
      unfold VM.call at hp
      obtain ⟨arg2, ha2, hp⟩ := Panic.map_eq_ok hp
      exact good_jump (good_push hg (parse_lt_of_new hg.regs_lt ha2)) hp.symm
  | RET =>
      simp only [VM.execute_instruction] at hs
      obtain ⟨⟨res, vm'⟩, hp, hseq⟩ := Panic.map_eq_ok hs
      subst hseq
      unfold VM.ret at hp
      cases hstk : vm.stack with
      | nil =>
          rw [hstk] at hp
          cases hp
          exact hg
      | cons v rest =>
          rw [hstk] at hp
          obtain ⟨arg2, ha2, hp⟩ := Panic.map_eq_ok hp
          exact good_jump (good_stack_tail hg hstk) hp.symm
  | OUT a =>
      simp only [VM.execute_instruction] at hs
      rcases ho : vm.write_output a with ⟨res, out⟩
      rw [ho] at hs
      dsimp only at hs
      cases hs
      exact hg
  | IN a =>
      simp only [VM.execute_instruction, Panic.bind_eq, Panic.pure_eq] at hs
      obtain ⟨arg, ha, hs⟩ := Panic.bind_eq_ok hs
      obtain ⟨⟨res, vm', stdin2⟩, hp, hs⟩ := Panic.bind_eq_ok hs
      cases hs
      unfold VM.read_input at hp
      cases arg with
      | Literal u =>
          obtain ⟨vm2, hwm, hp⟩ := Panic.map_eq_ok hp
          injection hp with hp1 hp2
          injection hp2 with hp2 hp3
          subst hp2
          exact good_write_memory hg (byte_lt _) hwm
      | Register r =>
          obtain ⟨arg2, ha2, hp⟩ := Panic.map_eq_ok hp
          dsimp only at hp
          injection hp with hp1 hp2
          injection hp2 with hp2 hp3
          subst hp2
          exact good_write_register hg (parse_lt_of_new hg.regs_lt ha2)

theorem step_good {vm : VM} {stdin : List Nat} {s : StepOut}
    (hg : GoodVM vm) (hs : vm.step stdin = .ok s) : GoodVM s.vm := by
  cases hci : vm.current_instruction with
  | panicked => rw [VM.step_panic stdin hci] at hs; cases hs
  | ok pr =>
      obtain ⟨r, vmd⟩ := pr
      obtain ⟨hst, hmem, hreg, hcs, hip⟩ := VM.current_instruction_fields hci
      have hgd : GoodVM vmd := good_of_fields hg hst hmem hreg hip
      cases r with
      | error e =>
          rw [VM.step_decode_error stdin hci] at hs
          cases hs
          exact hgd
      | ok i =>
          rw [VM.step_exec stdin hci] at hs
          exact execute_ok_good vmd i stdin s hgd (current_instruction_legal hci) hs

theorem load_good :
    ∀ (prog : List Nat) (vm : VM) (offset : Address), GoodVM vm →
    (∀ w ∈ prog, w < U16_MOD) → ∀ {vm' : VM},
    vm.load_program offset prog = .ok vm' → GoodVM vm'
  | [], vm, offset, hg, hw, vm', h => by
      unfold VM.load_program at h
      cases h
      exact hg
  | v :: rest, vm, offset, hg, hw, vm', h => by
      unfold VM.load_program at h
      simp only [Panic.bind_eq] at h
      split at h
      · obtain ⟨vm1, h1, h⟩ := Panic.bind_eq_ok h
        have hg1 := good_write_memory hg (hw v (List.mem_cons_self v rest)) h1
        exact load_good rest vm1 offset.next hg1
          (fun w hwm => hw w (List.mem_cons_of_mem v hwm)) h
      · cases h

theorem run_loop_good :
    ∀ (fuel : Nat) (vm : VM) (stdin : List Nat), GoodVM vm → ∀ {s : StepOut},
    VM.run_loop fuel vm stdin = .ok s → GoodVM s.vm
  | 0, vm, stdin, hg, s, h => by
      unfold VM.run_loop at h
      cases h
      exact hg
  | fuel + 1, vm, stdin, hg, s, h => by
      unfold VM.run_loop at h
      split at h
      · simp only [Panic.bind_eq] at h
        obtain ⟨s1, h1, h⟩ := Panic.bind_eq_ok h
        have hg1 := step_good hg h1
        cases hres : s1.res with
        | error e =>
            rw [hres] at h
            cases h
            exact hg1
        | ok st =>
            rw [hres] at h
            obtain ⟨t, ht, h⟩ := Panic.map_eq_ok h
            have hgt := run_loop_good fuel _ s1.stdin (good_set_state hg1) ht
            rw [h]
            exact hgt
      · cases h
        exact hg

/-- C1 counterexample (to the claim as stated): loading the one-word
program `[32768]` at offset 0 — the register-code word 32768 also
appears in the spec's own canonical program — leaves memory cell 0
holding 32768, which exceeds the Word bound 32767. -/
theorem loaded_memory_exceeds_word :
    Panic.map (fun vm => vm.memory.get? 0)
        (VM.init.load_program (Address.new 0) [32768]) = .ok (some 32768) ∧
    U15_MAX < 32768 := by
  have hlen : VM.init.memory.length = U15_MAX := by
    rw [show VM.init.memory = List.replicate U15_MAX 0 from rfl, List.length_replicate]
  have h0 := @VM.write_memory_ok VM.init (Address.new 0) 32768
    (by rw [hlen]; decide)
  have hload : VM.init.load_program (Address.new 0) [32768] =
      .ok { VM.init with memory := VM.init.memory.set 0 32768 } := by
    unfold VM.load_program
    rw [if_pos (by decide), h0]
    unfold VM.load_program
    rfl
  constructor
  · rw [hload]
    show Panic.ok ((VM.init.memory.set 0 32768).get? 0) = .ok (some 32768)
    rw [List.get?_eq_getElem?, List.getElem?_set_self (by rw [hlen]; decide)]
  · decide

/-- C1 (amended): the Word invariant does not survive `load_program`
(see the counterexample), but the raw 16-bit discipline the Rust types
give does — in every state reachable from `VM::init` by `load_program`
of 16-bit words, `step`, and `run`, the pointer, every memory cell,
every register and every stack entry is a 16-bit value (< 65536), and
the memory and register stores keep their fixed lengths. -/
theorem reachable_state_is_16bit (vm : VM) (h : Reachable vm) : GoodVM vm := by
  induction h with
  | base =>
      refine ⟨by decide, ?_, ?_, ?_, ?_, ?_⟩
      · rw [show VM.init.memory = List.replicate U15_MAX 0 from rfl,
          List.length_replicate]
      · rfl
      · intro x hx
        rw [List.eq_of_mem_replicate hx]
        decide
      · intro x hx
        rw [List.eq_of_mem_replicate hx]
        decide
      · intro x hx
        cases hx
  | load offset prog hr hw hl ih => exact load_good prog _ offset ih hw hl
  | stepped stdin s hr hs ih => exact step_good ih hs
  | ran start stdin fuel s hr hstart hrun ih =>
      unfold VM.run at hrun
      refine run_loop_good fuel _ stdin ?_ hrun
      obtain ⟨h1, h2, h3, h4, h5, h6⟩ := ih
      exact ⟨hstart, h2, h3, h4, h5, h6⟩

/-- C1 witness: the initial machine is reachable and well-formed. -/
theorem reachable_state_is_16bit_witness : GoodVM VM.init :=
  reachable_state_is_16bit VM.init Reachable.base

end Synacor
